import Mathlib

/-!
# Verification of the ai-capture-analyser asynchronous analysis job layer

Shallow embedding of the repository's job-state handlers (the Durable-Object
style `AnalysisObject` variants), the client-side helpers (`PcapParser.validateFile`,
`Backend.pollStatus`, `Backend.arrayBufferToBase64`, the JSON export), and the
JavaScript built-ins they rely on (`JSON.stringify`/`JSON.parse`, `btoa`/`atob`,
`encodeURIComponent`/`decodeURIComponent`).

Modelling conventions:
* JavaScript values are modelled by the inductive `Json`; JS numbers are
  modelled as integers (floating point is outside the embedding's scope).
* External effects (the Workers AI binding `env.AI.run`, `request.json()`,
  durable storage) are oracle parameters; storage writes are assumed to
  succeed, matching the code's non-failing use of `state.storage.put`.
* JS `undefined`/missing object properties come out as `Option.none`.
-/

set_option maxHeartbeats 1000000
set_option maxRecDepth 100000

/-- JSON values / JavaScript plain data, with numbers modelled as integers. -/
inductive Json where
  | jnull : Json
  | jbool : Bool → Json
  | jnum : Int → Json
  | jstr : String → Json
  | jarr : List Json → Json
  | jobj : List (String × Json) → Json
deriving Repr

/-- JavaScript truthiness of a value (`if (x)`). -/
def jsTruthy : Json → Bool
  | .jnull => false
  | .jbool b => b
  | .jnum n => decide (n ≠ 0)
  | .jstr s => decide (s ≠ "")
  | .jarr _ => true
  | .jobj _ => true

/-- First-match association-list lookup. -/
def lookupFirst {α : Type} : List (String × α) → String → Option α
  | [], _ => none
  | (k, v) :: tl, key => if k = key then some v else lookupFirst tl key

/-- JS property read `v[k]`: `none` models `undefined`. -/
def jget : Json → String → Option Json
  | .jobj fs, k => lookupFirst fs k
  | _, _ => none

/-- Truthiness of a possibly-missing value (`if (v.k)`). -/
def jsTruthyOpt : Option Json → Bool
  | none => false
  | some v => jsTruthy v

/-- Whether a JS object value has the given own property. -/
def jHasKey (v : Json) (k : String) : Bool :=
  (jget v k).isSome

/-- JS property assignment `o[k] = v`: replaces in place, else appends.
On non-objects it is the identity (the repository only assigns into objects). -/
def jsAssignFields : List (String × Json) → String → Json → List (String × Json)
  | [], k, v => [(k, v)]
  | (k', v') :: tl, k, v =>
      if k' = k then (k', v) :: tl else (k', v') :: jsAssignFields tl k v

/-- JS property assignment on a value. -/
def jsetKey : Json → String → Json → Json
  | .jobj fs, k, v => .jobj (jsAssignFields fs k v)
  | w, _, _ => w

/-- Build a JS object from parsed key/value pairs in order, later duplicate
keys overwriting the value stored at the first occurrence (JS object
semantics used by `JSON.parse`). -/
def jsObjFromPairsAux : List (String × Json) → List (String × Json) → List (String × Json)
  | acc, [] => acc
  | acc, (k, v) :: tl => jsObjFromPairsAux (jsAssignFields acc k v) tl

def jsObjFromPairs (ps : List (String × Json)) : List (String × Json) :=
  jsObjFromPairsAux [] ps

/-- Key list of an object's fields. -/
def fieldKeys (fs : List (String × Json)) : List String :=
  fs.map Prod.fst

/-- No-duplicate check on a key list. -/
def nodupKeys : List String → Bool
  | [] => true
  | k :: tl => (!tl.any (fun k' => k' = k)) && nodupKeys tl

mutual
/-- Well-formedness of a `Json` value as an in-memory JavaScript value:
every object's keys are pairwise distinct (a real JS object cannot carry
duplicate keys). -/
def jsonWf : Json → Bool
  | .jnull => true
  | .jbool _ => true
  | .jnum _ => true
  | .jstr _ => true
  | .jarr xs => jsonWfList xs
  | .jobj fs => nodupKeys (fieldKeys fs) && jsonWfFields fs

def jsonWfList : List Json → Bool
  | [] => true
  | x :: xs => jsonWf x && jsonWfList xs

def jsonWfFields : List (String × Json) → Bool
  | [] => true
  | (_, v) :: fs => jsonWf v && jsonWfFields fs
end

/-! ## Decimal digits -/

/-- The decimal digit character for `n < 10`. -/
def natDigitChar (n : Nat) : Char := Char.ofNat (48 + n)

/-- Decimal digits, most significant first, by explicit fuel (so that the
definition reduces inside the kernel); `digitsOf` supplies enough fuel. -/
def digitsOfAux : Nat → Nat → List Nat
  | 0, _ => []
  | fuel + 1, n => if n < 10 then [n] else digitsOfAux fuel (n / 10) ++ [n % 10]

/-- Decimal digits of `n`, most significant first. -/
def digitsOf (n : Nat) : List Nat :=
  digitsOfAux (n + 1) n

/-- Decimal rendering of a natural number. -/
def printNat (n : Nat) : List Char :=
  (digitsOf n).map natDigitChar

/-- Decimal rendering of an integer (matches how `JSON.stringify` prints an
integral JS number). -/
def printInt (i : Int) : List Char :=
  if i < 0 then '-' :: printNat i.natAbs else printNat i.natAbs

/-- ASCII decimal digit test. -/
def isDigitChar (c : Char) : Bool := 48 ≤ c.toNat && c.toNat ≤ 57

/-- Value of a decimal digit character. -/
def digitVal (c : Char) : Nat := c.toNat - 48

/-! ## Hexadecimal digits -/

/-- Lower-case hex digit for `n < 16` (as produced by `Number.toString(16)`). -/
def hexDigitLower (n : Nat) : Char :=
  if n < 10 then Char.ofNat (48 + n) else Char.ofNat (87 + n)

/-- Upper-case hex digit (as produced by `encodeURIComponent`). -/
def hexDigitUpper (n : Nat) : Char :=
  if n < 10 then Char.ofNat (48 + n) else Char.ofNat (55 + n)

/-- Value of a hex digit character (either case); `none` when not hex. -/
def parseHexDigit (c : Char) : Option Nat :=
  let n := c.toNat
  if 48 ≤ n && n ≤ 57 then some (n - 48)
  else if 97 ≤ n && n ≤ 102 then some (n - 87)
  else if 65 ≤ n && n ≤ 70 then some (n - 55)
  else none

/-! ## String escaping for `JSON.stringify` -/

/-- Escape one character the way `JSON.stringify` quotes string contents. -/
def escapeChar (c : Char) : List Char :=
  if c = '"' then ['\\', '"']
  else if c = '\\' then ['\\', '\\']
  else if c = '\n' then ['\\', 'n']
  else if c = '\r' then ['\\', 'r']
  else if c = '\t' then ['\\', 't']
  else if c.toNat = 8 then ['\\', 'b']
  else if c.toNat = 12 then ['\\', 'f']
  else if c.toNat < 32 then
    ['\\', 'u', '0', '0', hexDigitLower (c.toNat / 16), hexDigitLower (c.toNat % 16)]
  else [c]

/-- Quoted, escaped rendering of a string literal. -/
def escapeString (s : String) : List Char :=
  '"' :: (s.data.map escapeChar).flatten ++ ['"']

/-! ## `JSON.stringify(v, null, 2)` and `JSON.stringify(v)` -/

/-- The indentation prefix at nesting depth `d` for a 2-space gap. -/
def indentChars (d : Nat) : List Char := List.replicate (2 * d) ' '

mutual
/-- `JSON.stringify(v, null, 2)` at nesting depth `d`, as a character list. -/
def printJson : Json → Nat → List Char
  | .jnull, _ => ['n', 'u', 'l', 'l']
  | .jbool true, _ => ['t', 'r', 'u', 'e']
  | .jbool false, _ => ['f', 'a', 'l', 's', 'e']
  | .jnum i, _ => printInt i
  | .jstr s, _ => escapeString s
  | .jarr [], _ => ['[', ']']
  | .jarr (x :: xs), d =>
      '[' :: '\n' :: indentChars (d + 1) ++ printJson x (d + 1)
        ++ printArrTail xs (d + 1) ++ '\n' :: indentChars d ++ [']']
  | .jobj [], _ => ['{', '}']
  | .jobj ((k, v) :: fs), d =>
      '{' :: '\n' :: indentChars (d + 1) ++ escapeString k ++ ':' :: ' ' :: printJson v (d + 1)
        ++ printObjTail fs (d + 1) ++ '\n' :: indentChars d ++ ['}']

/-- Remaining array items, each preceded by `",\n" ++ indent`. -/
def printArrTail : List Json → Nat → List Char
  | [], _ => []
  | x :: xs, d => ',' :: '\n' :: indentChars d ++ printJson x d ++ printArrTail xs d

/-- Remaining object members, each preceded by `",\n" ++ indent`. -/
def printObjTail : List (String × Json) → Nat → List Char
  | [], _ => []
  | (k, v) :: fs, d =>
      ',' :: '\n' :: indentChars d ++ escapeString k ++ ':' :: ' ' :: printJson v d
        ++ printObjTail fs d
end

mutual
/-- Compact `JSON.stringify(v)` (no indent argument), as a character list. -/
def printJsonC : Json → List Char
  | .jnull => ['n', 'u', 'l', 'l']
  | .jbool true => ['t', 'r', 'u', 'e']
  | .jbool false => ['f', 'a', 'l', 's', 'e']
  | .jnum i => printInt i
  | .jstr s => escapeString s
  | .jarr [] => ['[', ']']
  | .jarr (x :: xs) => '[' :: printJsonC x ++ printArrTailC xs ++ [']']
  | .jobj [] => ['{', '}']
  | .jobj ((k, v) :: fs) =>
      '{' :: escapeString k ++ ':' :: printJsonC v ++ printObjTailC fs ++ ['}']

def printArrTailC : List Json → List Char
  | [] => []
  | x :: xs => ',' :: printJsonC x ++ printArrTailC xs

def printObjTailC : List (String × Json) → List Char
  | [] => []
  | (k, v) :: fs => ',' :: escapeString k ++ ':' :: printJsonC v ++ printObjTailC fs
end

/-- `JSON.stringify(v, null, 2)` as a Lean string. -/
def jsonStringify2 (v : Json) : String := String.mk (printJson v 0)

/-- `JSON.stringify(v)` as a Lean string. -/
def jsonStringifyC (v : Json) : String := String.mk (printJsonC v)

/-! ## `JSON.parse` -/

/-- JSON insignificant whitespace test. -/
def isJsonWs (c : Char) : Bool := c = ' ' || c = '\n' || c = '\t' || c = '\r'

/-- Skip leading JSON whitespace. -/
def skipWs : List Char → List Char
  | [] => []
  | c :: cs => if isJsonWs c then skipWs cs else c :: cs

/-- Accumulate decimal digits left to right: `parseDigitsAux cs a` reads a
maximal digit prefix of `cs` onto the accumulator `a`. -/
def parseDigitsAux : List Char → Nat → Nat × List Char
  | [], a => (a, [])
  | c :: cs, a => if isDigitChar c then parseDigitsAux cs (a * 10 + digitVal c) else (a, c :: cs)

/-- UTF-16 code units of a character, as a JS string stores it. -/
def utf16Units (c : Char) : List Nat :=
  if c.toNat < 65536 then [c.toNat]
  else [55296 + (c.toNat - 65536) / 1024, 56320 + (c.toNat - 65536) % 1024]

/-- Reassemble UTF-16 code units into characters, combining surrogate pairs.
A lone surrogate (possible in a JS string, not representable as a Lean
`Char`) degrades through `Char.ofNat`'s fallback. -/
def utf16ToChars : List Nat → List Char
  | [] => []
  | [u] => [Char.ofNat u]
  | u :: u2 :: us =>
    if 55296 ≤ u && u ≤ 56319 then
      if 56320 ≤ u2 && u2 ≤ 57343 then
        Char.ofNat (65536 + (u - 55296) * 1024 + (u2 - 56320)) :: utf16ToChars us
      else Char.ofNat u :: utf16ToChars (u2 :: us)
    else Char.ofNat u :: utf16ToChars (u2 :: us)

/-- Parse a JSON string body after the opening quote into UTF-16 code units
(reversed accumulator), escape sequences included — mirroring how
`JSON.parse` builds a JS (UTF-16) string. -/
def parseStrUnits : List Char → List Nat → Option (List Nat × List Char)
  | [], _ => none
  | c :: cs, acc =>
    if c = '"' then some (acc, cs)
    else if c = '\\' then
      match cs with
      | [] => none
      | e :: cs' =>
        if e = '"' then parseStrUnits cs' (34 :: acc)
        else if e = '\\' then parseStrUnits cs' (92 :: acc)
        else if e = '/' then parseStrUnits cs' (47 :: acc)
        else if e = 'n' then parseStrUnits cs' (10 :: acc)
        else if e = 'r' then parseStrUnits cs' (13 :: acc)
        else if e = 't' then parseStrUnits cs' (9 :: acc)
        else if e = 'b' then parseStrUnits cs' (8 :: acc)
        else if e = 'f' then parseStrUnits cs' (12 :: acc)
        else if e = 'u' then
          match cs' with
          | h1 :: h2 :: h3 :: h4 :: cs'' =>
            match parseHexDigit h1, parseHexDigit h2, parseHexDigit h3, parseHexDigit h4 with
            | some a, some b, some c', some d =>
              parseStrUnits cs'' ((((a * 16 + b) * 16 + c') * 16 + d) :: acc)
            | _, _, _, _ => none
          | _ => none
        else none
    else if c.toNat < 32 then none
    else parseStrUnits cs ((utf16Units c).reverse ++ acc)

/-- Parse a complete JSON string token after the opening quote. -/
def parseStringTok (cs : List Char) : Option (String × List Char) :=
  match parseStrUnits cs [] with
  | some (us, rest) => some (String.mk (utf16ToChars us.reverse), rest)
  | none => none

mutual
/-- Fuel-indexed JSON value grammar, mirroring `JSON.parse` restricted to
integer numerals (no fraction/exponent). -/
def parseValue : Nat → List Char → Option (Json × List Char)
  | 0, _ => none
  | fuel + 1, cs =>
    match skipWs cs with
    | 'n' :: 'u' :: 'l' :: 'l' :: rest => some (.jnull, rest)
    | 't' :: 'r' :: 'u' :: 'e' :: rest => some (.jbool true, rest)
    | 'f' :: 'a' :: 'l' :: 's' :: 'e' :: rest => some (.jbool false, rest)
    | '"' :: rest =>
      match parseStringTok rest with
      | some (s, rest') => some (.jstr s, rest')
      | none => none
    | '[' :: rest =>
      match skipWs rest with
      | ']' :: rest' => some (.jarr [], rest')
      | cs' =>
        match parseArrItems fuel cs' with
        | some (xs, rest') => some (.jarr xs, rest')
        | none => none
    | '{' :: rest =>
      match skipWs rest with
      | '}' :: rest' => some (.jobj [], rest')
      | cs' =>
        match parseObjItems fuel cs' with
        | some (ps, rest') => some (.jobj (jsObjFromPairs ps), rest')
        | none => none
    | '-' :: rest =>
      match rest with
      | c :: _ =>
        if isDigitChar c then
          match rest with
          | '0' :: c' :: rest' =>
            if isDigitChar c' then none
            else some (.jnum 0, c' :: rest')
          | _ =>
            let (n, rest') := parseDigitsAux rest 0
            some (.jnum (-(n : Int)), rest')
      else none
      | [] => none
    | c :: rest =>
      if isDigitChar c then
        match c, rest with
        | '0', c' :: rest' =>
          if isDigitChar c' then none
          else some (.jnum 0, c' :: rest')
        | _, _ =>
          let (n, rest') := parseDigitsAux (c :: rest) 0
          some (.jnum (n : Int), rest')
      else none
    | [] => none

/-- One or more comma-separated array items followed by `]`. -/
def parseArrItems : Nat → List Char → Option (List Json × List Char)
  | 0, _ => none
  | fuel + 1, cs =>
    match parseValue fuel cs with
    | none => none
    | some (v, rest) =>
      match skipWs rest with
      | ',' :: rest' =>
        match parseArrItems fuel rest' with
        | some (xs, rest'') => some (v :: xs, rest'')
        | none => none
      | ']' :: rest' => some ([v], rest')
      | _ => none

/-- One or more comma-separated object members followed by `}`. -/
def parseObjItems : Nat → List Char → Option (List (String × Json) × List Char)
  | 0, _ => none
  | fuel + 1, cs =>
    match skipWs cs with
    | '"' :: rest =>
      match parseStringTok rest with
      | none => none
      | some (k, rest1) =>
        match skipWs rest1 with
        | ':' :: rest2 =>
          match parseValue fuel rest2 with
          | none => none
          | some (v, rest3) =>
            match skipWs rest3 with
            | ',' :: rest4 =>
              match parseObjItems fuel rest4 with
              | some (ps, rest5) => some ((k, v) :: ps, rest5)
              | none => none
            | '}' :: rest4 => some ([(k, v)], rest4)
            | _ => none
        | _ => none
    | _ => none
end

/-- `JSON.parse(s)`: parse a complete document, allowing surrounding
whitespace only; `none` models a thrown `SyntaxError`. -/
def parseJson (s : String) : Option Json :=
  match parseValue (2 * s.data.length + 2) s.data with
  | some (v, rest) => if skipWs rest = [] then some v else none
  | none => none

/-! ## `encodeURIComponent` / `decodeURIComponent` -/

/-- Characters `encodeURIComponent` leaves unescaped:
`A-Z a-z 0-9 - _ . ! ~ * ' ( )`. -/
def uriUnreserved (c : Char) : Bool :=
  let n := c.toNat
  (65 ≤ n && n ≤ 90) || (97 ≤ n && n ≤ 122) || (48 ≤ n && n ≤ 57) ||
    n = 45 || n = 95 || n = 46 || n = 33 || n = 126 || n = 42 || n = 39 ||
    n = 40 || n = 41

/-- UTF-8 bytes of a code point. -/
def utf8Bytes (n : Nat) : List Nat :=
  if n < 128 then [n]
  else if n < 2048 then [192 + n / 64, 128 + n % 64]
  else if n < 65536 then [224 + n / 4096, 128 + n / 64 % 64, 128 + n % 64]
  else [240 + n / 262144, 128 + n / 4096 % 64, 128 + n / 64 % 64, 128 + n % 64]

/-- Percent-encode one byte with upper-case hex. -/
def pctByte (b : Nat) : List Char :=
  ['%', hexDigitUpper (b / 16), hexDigitUpper (b % 16)]

/-- `encodeURIComponent` on one character. -/
def encURIChar (c : Char) : List Char :=
  if uriUnreserved c then [c] else ((utf8Bytes c.toNat).map pctByte).flatten

/-- `encodeURIComponent` over the characters of a string. -/
def encodeURIComponent (cs : List Char) : List Char :=
  (cs.map encURIChar).flatten

/-- `decodeURIComponent`: percent-escapes are decoded as UTF-8 sequences
(whose continuation bytes are themselves percent-escapes); other characters
pass through. `none` models a thrown `URIError`. -/
def decodeURIComponentAux : Nat → List Char → Option (List Char)
  | 0, _ => none
  | _ + 1, [] => some []
  | fuel + 1, c :: rest =>
    if c = '%' then
      match rest with
      | h1 :: h2 :: rest0 =>
        (match parseHexDigit h1, parseHexDigit h2 with
         | some a, some b =>
           let b0 := a * 16 + b
           if b0 < 128 then
             match decodeURIComponentAux fuel rest0 with
             | some tl => some (Char.ofNat b0 :: tl)
             | none => none
           else if b0 < 192 then none
           else if b0 < 224 then
             match rest0 with
             | '%' :: g1 :: g2 :: rest1 =>
               (match parseHexDigit g1, parseHexDigit g2 with
                | some a1, some a2 =>
                  let b1 := a1 * 16 + a2
                  if 128 ≤ b1 && b1 < 192 then
                    match decodeURIComponentAux fuel rest1 with
                    | some tl => some (Char.ofNat ((b0 - 192) * 64 + (b1 - 128)) :: tl)
                    | none => none
                  else none
                | _, _ => none)
             | _ => none
           else if b0 < 240 then
             match rest0 with
             | '%' :: g1 :: g2 :: '%' :: g3 :: g4 :: rest2 =>
               (match parseHexDigit g1, parseHexDigit g2, parseHexDigit g3,
                    parseHexDigit g4 with
                | some a1, some a2, some a3, some a4 =>
                  let b1 := a1 * 16 + a2
                  let b2 := a3 * 16 + a4
                  if (128 ≤ b1 && b1 < 192) && (128 ≤ b2 && b2 < 192) then
                    match decodeURIComponentAux fuel rest2 with
                    | some tl =>
                      some (Char.ofNat ((b0 - 224) * 4096 + (b1 - 128) * 64
                        + (b2 - 128)) :: tl)
                    | none => none
                  else none
                | _, _, _, _ => none)
             | _ => none
           else if b0 < 248 then
             match rest0 with
             | '%' :: g1 :: g2 :: '%' :: g3 :: g4 :: '%' :: g5 :: g6 :: rest3 =>
               (match parseHexDigit g1, parseHexDigit g2, parseHexDigit g3,
                    parseHexDigit g4, parseHexDigit g5, parseHexDigit g6 with
                | some a1, some a2, some a3, some a4, some a5, some a6 =>
                  let b1 := a1 * 16 + a2
                  let b2 := a3 * 16 + a4
                  let b3 := a5 * 16 + a6
                  if (128 ≤ b1 && b1 < 192) && (128 ≤ b2 && b2 < 192)
                      && (128 ≤ b3 && b3 < 192) then
                    match decodeURIComponentAux fuel rest3 with
                    | some tl =>
                      some (Char.ofNat ((b0 - 240) * 262144 + (b1 - 128) * 4096
                        + (b2 - 128) * 64 + (b3 - 128)) :: tl)
                    | none => none
                  else none
                | _, _, _, _, _, _ => none)
             | _ => none
           else none
         | _, _ => none)
      | _ => none
    else
      match decodeURIComponentAux fuel rest with
      | some tl => some (c :: tl)
      | none => none

/-- `decodeURIComponent` with enough fuel for its input. -/
def decodeURIComponent (cs : List Char) : Option (List Char) :=
  decodeURIComponentAux (cs.length + 1) cs

/-! ## `btoa` / `atob` (base64) -/

/-- The base64 alphabet character for a sextet `n < 64`. -/
def b64Char (n : Nat) : Char :=
  if n < 26 then Char.ofNat (65 + n)
  else if n < 52 then Char.ofNat (97 + (n - 26))
  else if n < 62 then Char.ofNat (48 + (n - 52))
  else if n = 62 then '+'
  else '/'

/-- Inverse of the base64 alphabet; `none` for a non-alphabet character. -/
def b64CharVal (c : Char) : Option Nat :=
  let n := c.toNat
  if 65 ≤ n && n ≤ 90 then some (n - 65)
  else if 97 ≤ n && n ≤ 122 then some (n - 97 + 26)
  else if 48 ≤ n && n ≤ 57 then some (n - 48 + 52)
  else if n = 43 then some 62
  else if n = 47 then some 63
  else none

/-- Base64-encode a byte list, with `=` padding (the output of `btoa`). -/
def b64Encode : List Nat → List Char
  | [] => []
  | [a] => [b64Char (a / 4), b64Char (a % 4 * 16), '=', '=']
  | [a, b] => [b64Char (a / 4), b64Char (a % 4 * 16 + b / 16), b64Char (b % 16 * 4), '=']
  | a :: b :: c :: rest =>
      b64Char (a / 4) :: b64Char (a % 4 * 16 + b / 16)
        :: b64Char (b % 16 * 4 + c / 64) :: b64Char (c % 64) :: b64Encode rest

/-- `btoa(s)` on a binary string given as its character codes: fails (throws
`InvalidCharacterError`) when a code exceeds 255. -/
def jsBtoa (codes : List Nat) : Option String :=
  if codes.any (fun b => 255 < b) then none
  else some (String.mk (b64Encode codes))

/-- ASCII whitespace stripped by the forgiving-base64 algorithm of `atob`. -/
def isAsciiWs (c : Char) : Bool :=
  c = ' ' || c = '\t' || c = '\n' || c = '\x0c' || c = '\r'

/-- Split trailing `=` padding off a character list. -/
def splitPad (cs : List Char) : List Char × Nat :=
  let r := cs.reverse
  let pads := r.takeWhile (fun c => c = '=')
  ((r.drop pads.length).reverse, pads.length)

/-- Decode a list of sextet values to bytes (the final group may have 2 or 3
sextets; a single leftover sextet is invalid). -/
def b64DecodeSextets : List Nat → Option (List Nat)
  | [] => some []
  | [_] => none
  | [a, b] => some [a * 4 + b / 16]
  | [a, b, c] => some [a * 4 + b / 16, b % 16 * 16 + c / 4]
  | a :: b :: c :: d :: rest =>
      match b64DecodeSextets rest with
      | some tl => some ((a * 4 + b / 16) :: (b % 16 * 16 + c / 4) :: (c % 4 * 64 + d) :: tl)
      | none => none

/-- Map alphabet characters to sextets; `none` on a foreign character. -/
def b64Vals : List Char → Option (List Nat)
  | [] => some []
  | c :: cs =>
    match b64CharVal c with
    | some v =>
      match b64Vals cs with
      | some vs => some (v :: vs)
      | none => none
    | none => none

/-- `atob(s)` (forgiving base64): strip ASCII whitespace, allow up to two
trailing `=` completing a 4-character group, decode; `none` models a thrown
`InvalidCharacterError`. -/
def jsAtob (s : String) : Option (List Nat) :=
  let cs := s.data.filter (fun c => !isAsciiWs c)
  let bp := splitPad cs
  if 2 < bp.2 then none
  else if bp.2 ≠ 0 ∧ (bp.1.length + bp.2) % 4 ≠ 0 then none
  else if bp.1.length % 4 = 1 then none
  else
    match b64Vals bp.1 with
    | some vs => b64DecodeSextets vs
    | none => none

/-! ## JS `String(...)` coercion -/

mutual
/-- JS `String(v)` — the coercion `JSON.parse` applies to a non-string
argument, and the one used inside template literals. -/
def jsToString : Json → String
  | .jnull => "null"
  | .jbool true => "true"
  | .jbool false => "false"
  | .jnum n => String.mk (printInt n)
  | .jstr s => s
  | .jarr xs => jsArrJoin xs
  | .jobj _ => "[object Object]"

/-- `Array.prototype.toString`: elements joined with `,`; `null` elements
render as the empty string. -/
def jsArrJoin : List Json → String
  | [] => ""
  | [.jnull] => ""
  | [x] => jsToString x
  | .jnull :: y :: tl => "" ++ "," ++ jsArrJoin (y :: tl)
  | x :: y :: tl => jsToString x ++ "," ++ jsArrJoin (y :: tl)
end

/-! ## Regex salvage `/\{[\s\S]*\}|\[[\s\S]*\]/` from `part_005` -/

/-- The prefix of `cs` up to and including the last occurrence of `c`. -/
def takeToLast (c : Char) (cs : List Char) : List Char :=
  ((cs.reverse.dropWhile (fun c' => c' ≠ c)).reverse)

/-- Leftmost, greedy match of `\{[\s\S]*\}|\[[\s\S]*\]`: at the first
position opening a brace (with a later closing brace) or a bracket (with a
later closing bracket), capture through the last such closer. -/
def extractJsonSubstringAux : List Char → Option (List Char)
  | [] => none
  | c :: cs =>
    if c = '{' && cs.contains '}' then some ('{' :: takeToLast '}' cs)
    else if c = '[' && cs.contains ']' then some ('[' :: takeToLast ']' cs)
    else extractJsonSubstringAux cs

/-- `response.match(/\{[\s\S]*\}|\[[\s\S]*\]/)`, first capture. -/
def extractJsonSubstring (s : String) : Option String :=
  (extractJsonSubstringAux s.data).map String.mk

/-! ## Configuration data (`public/config.js`) -/

/-- `llm_prompts.analysis_pcap_explanation_template` (public/config.js). -/
def analysisTemplate : String :=
  "\n    You are an expert SIP and RTP packet analyst. Your task is to analyze a raw PCAP file snippet and provide a detailed report.\n    The user will provide a snippet of raw PCAP data.\n    Your response must be a JSON object that adheres to the provided schema.\n    ---\n    PCAP Snippet ({file_name}):\n    {pcap_data_snippet}\n    "

/-- `llm_prompts.comparison_pcap_explanation_template` (public/config.js). -/
def comparisonTemplate : String :=
  "\n    You are an expert SIP and RTP packet analyst. Your task is to compare two raw PCAP file snippets.\n    The user will provide two snippets of raw PCAP data, labeled {label1} and {label2}.\n    Your response must be a JSON object that adheres to the provided schema.\n    ---\n    PCAP 1 Snippet ({label1}):\n    {pcap_data_snippet1}\n    ---\n    PCAP 2 Snippet ({label2}):\n    {pcap_data_snippet2}\n    "

/-- `llm_prompts.analysis_pcap_explanation_schema` (public/config.js,
lines 81-112), as a JSON value. -/
def analysisSchemaJson : Json :=
  .jobj [
    ("type", .jstr "object"),
    ("properties", .jobj [
      ("summary", .jobj [
        ("type", .jstr "string"),
        ("description", .jstr "Overall summary of the network traffic, including key protocols, services, and traffic patterns.")]),
      ("protocol_distribution", .jobj [
        ("type", .jstr "object"),
        ("patternProperties", .jobj [
          (".*", .jobj [("type", .jstr "number")])]),
        ("description", .jstr "A key-value pair of protocol names and their percentage distribution in the capture.")]),
      ("anomalies_and_errors", .jobj [
        ("type", .jstr "array"),
        ("items", .jobj [("type", .jstr "string")]),
        ("description", .jstr "List of detected anomalies or errors, such as unusual traffic, failed connections, or potential security threats.")]),
      ("sip_rtp_info", .jobj [
        ("type", .jstr "string"),
        ("description", .jstr "Summary of any detected SIP/RTP information, otherwise \x27N/A\x27.")]),
      ("important_timestamps_packets", .jobj [
        ("type", .jstr "string"),
        ("description", .jstr "Key timestamps or packet numbers, otherwise \x27N/A\x27.")])]),
    ("required", .jarr [.jstr "summary", .jstr "protocol_distribution",
      .jstr "anomalies_and_errors", .jstr "sip_rtp_info",
      .jstr "important_timestamps_packets"])]

/-- `llm_prompts.comparison_pcap_explanation_schema` (public/config.js),
as a JSON value. -/
def comparisonSchemaJson : Json :=
  .jobj [
    ("type", .jstr "object"),
    ("properties", .jobj [
      ("overall_comparison_summary", .jobj [
        ("type", .jstr "string"),
        ("description", .jstr "Overall summary of the comparison.")]),
      ("key_differences", .jobj [
        ("type", .jstr "array"),
        ("items", .jobj [("type", .jstr "string")]),
        ("description", .jstr "List of key differences between the two captures.")]),
      ("key_similarities", .jobj [
        ("type", .jstr "array"),
        ("items", .jobj [("type", .jstr "string")]),
        ("description", .jstr "List of key similarities between the two captures.")]),
      ("security_implications", .jobj [
        ("type", .jstr "array"),
        ("items", .jobj [("type", .jstr "string")]),
        ("description", .jstr "Analysis of any security implications or risks identified.")]),
      ("important_timestamps_packets", .jobj [
        ("type", .jstr "string"),
        ("description", .jstr "Key timestamps or packet numbers relevant to the comparison, otherwise \x27N/A\x27.")])]),
    ("required", .jarr [.jstr "overall_comparison_summary", .jstr "key_differences",
      .jstr "key_similarities", .jstr "security_implications",
      .jstr "important_timestamps_packets"])]

/-- The `required` list of the analysis schema: the five keys a conforming
analysis report must carry. -/
def analysisRequiredKeys : List String :=
  ["summary", "protocol_distribution", "anomalies_and_errors", "sip_rtp_info",
   "important_timestamps_packets"]

/-- JS `String.prototype.replace` with a string pattern: replace the first
occurrence only. -/
def replaceFirst (s pat rep : String) : String :=
  match s.splitOn pat with
  | [] => s
  | [x] => x
  | x :: xs => x ++ rep ++ String.intercalate pat xs

/-- The fixed instruction suffix `formatPrompt` appends before the schema. -/
def promptSchemaSuffix : String :=
  "\n\nIMPORTANT: Respond with ONLY a single JSON object that strictly adheres to the following schema. DO NOT include any other text, explanations, or code block markers (like ```json```): \n"

/-- `AnalysisObject.formatPrompt('analysis', data)` (part_005 lines 724-729). -/
def formatPromptAnalysis (pcapDataSnippet fileName : String) : String :=
  replaceFirst (replaceFirst analysisTemplate "{pcap_data_snippet}" pcapDataSnippet)
      "{file_name}" fileName
    ++ promptSchemaSuffix ++ jsonStringify2 analysisSchemaJson

/-- `AnalysisObject.formatPrompt('comparison', data)` (part_005 lines 730-736). -/
def formatPromptComparison (snippet1 snippet2 label1 label2 : String) : String :=
  replaceFirst (replaceFirst (replaceFirst (replaceFirst comparisonTemplate
      "{pcap_data_snippet1}" snippet1) "{pcap_data_snippet2}" snippet2)
      "{label1}" label1) "{label2}" label2
    ++ promptSchemaSuffix ++ jsonStringify2 comparisonSchemaJson

/-- One byte as two lower-case hex digits (`byte.toString(16).padStart(2, '0')`). -/
def hexByteLower (b : Nat) : List Char :=
  [hexDigitLower (b / 16 % 16), hexDigitLower (b % 16)]

/-- `AnalysisObject.extractPcapSnippet(buffer, size)` (part_005 lines 717-721):
first `size` bytes rendered as a hex string. -/
def extractPcapSnippet (bytes : List Nat) (size : Nat) : String :=
  String.mk (((bytes.take size).map hexByteLower).flatten)

/-! ## part_005 `AnalysisObject` (worker with request-shape fallbacks) -/

/-- Job status (`'idle' | 'processing' | 'complete' | 'error'`). -/
inductive Status where
  | idle : Status
  | processing : Status
  | complete : Status
  | error : Status
deriving Repr, DecidableEq

/-- Wire form of a status. -/
def statusString : Status → String
  | .idle => "idle"
  | .processing => "processing"
  | .complete => "complete"
  | .error => "error"

/-- In-memory state of the part_005 `AnalysisObject`: `result` is `none`
when the JS field is `null`. -/
structure P5State where
  status : Status
  result : Option Json
  error : Option String
deriving Repr

/-- State of a freshly constructed part_005 object (constructor lines
434-437): `status = 'idle'`, `result = {}`, `error = null`. -/
def p5InitialState : P5State :=
  { status := .idle, result := some (.jobj []), error := none }

/-- A modelled HTTP response: status code plus (JSON-valued) body. -/
structure HttpResponse where
  httpStatus : Nat
  body : Json
deriving Repr

/-- Parsed request body for part_005's `handleProcessRequest`; field `type`
is rendered `reqType`. Fields the branch taken does not read are ignored by
the handler, matching destructuring of a JSON body. -/
structure P5Body where
  reqType : String
  pcap_data : String
  file_name : String
  pcap_data1 : String
  pcap_data2 : String
  file_name1 : String
  file_name2 : String
  llm_model_key : String

/-- A request to part_005's `handleProcessRequest`: `malformed m` models
`request.json()` throwing with message `m`. -/
inductive P5Request where
  | malformed : String → P5Request
  | json : P5Body → P5Request

/-- The four request shapes tried against `env.AI.run`. -/
inductive AiShape where
  | input : AiShape
  | prompt : AiShape
  | messages : AiShape
  | text : AiShape
deriving Repr, DecidableEq

/-- The oracle for `env.AI.run`: per shape and prompt, either a thrown error
message or the returned value. -/
def AiOracle : Type := AiShape → String → Except String Json

/-- part_005 lines 556-611: try `input`, then `prompt`, then `messages`,
then `text`; when all four throw, throw
`All input formats failed. Last error: <text-shape error>`. -/
def tryFormats (ai : AiOracle) (promptToUse : String) : Except String Json :=
  match ai .input promptToUse with
  | .ok r => .ok r
  | .error _ =>
    match ai .prompt promptToUse with
    | .ok r => .ok r
    | .error _ =>
      match ai .messages promptToUse with
      | .ok r => .ok r
      | .error _ =>
        match ai .text promptToUse with
        | .ok r => .ok r
        | .error m => .error ("All input formats failed. Last error: " ++ m)

/-- `JSON.parse(v)` for a value of unknown type: JS coerces the argument
with `String(...)` first. -/
def jsJsonParse (v : Json) : Option Json :=
  parseJson (jsToString v)

/-- Parse branch for `response.response` / `response.result` (part_005 lines
636-639): a string is `JSON.parse`d — a parse failure escapes to the outer
catch (`.error ()`) — any other value is used as-is. -/
def jsonParseIfString : Json → Except Unit Json
  | .jstr s =>
    match parseJson s with
    | some r => .ok r
    | none => .error ()
  | v => .ok v

/-- `response.choices && response.choices.length > 0` (line 640). -/
def choicesNonempty (response : Json) : Bool :=
  match jget response "choices" with
  | some (.jarr (_ :: _)) => true
  | some (.jstr s) => decide (s ≠ "")
  | _ => false

/-- `response.choices[0]` in the cases `choicesNonempty` lets through. -/
def choiceHead (response : Json) : Json :=
  match jget response "choices" with
  | some (.jarr (x :: _)) => x
  | some (.jstr s) =>
    match s.data with
    | c :: _ => .jstr (String.mk [c])
    | [] => .jnull
  | _ => .jnull

/-- Lines 644-654 and 660-664: `JSON.parse` a message content inside a local
`try`, falling back to `{ raw_response: content }`. -/
def parseContentOrRaw (content : Json) : Json :=
  match jsJsonParse content with
  | some v => v
  | none => .jobj [("raw_response", content)]

/-- The response-parsing cascade of part_005 lines 619-674, up to the outer
catch: `.error ()` marks a `JSON.parse` exception escaping to line 675. -/
def aiParseCore (response : Json) : Except Unit Json :=
  match response with
  | .jstr s =>
    match parseJson s with
    | some v => .ok v
    | none =>
      match extractJsonSubstring s with
      | some sub =>
        match parseJson sub with
        | some v => .ok v
        | none => .error ()
      | none => .ok (.jobj [("raw_response", .jstr s)])
  | _ =>
    if jsTruthyOpt (jget response "response") then
      jsonParseIfString ((jget response "response").getD .jnull)
    else if jsTruthyOpt (jget response "result") then
      jsonParseIfString ((jget response "result").getD .jnull)
    else if choicesNonempty response then
      (let choice := choiceHead response
       if jsTruthyOpt (jget choice "message")
           && jsTruthyOpt (jget ((jget choice "message").getD .jnull) "content") then
         .ok (parseContentOrRaw ((jget ((jget choice "message").getD .jnull) "content").getD .jnull))
       else if jsTruthyOpt (jget choice "text") then
         .ok (parseContentOrRaw ((jget choice "text").getD .jnull))
       else .ok response)
    else if jsTruthyOpt (jget response "message")
        && jsTruthyOpt (jget ((jget response "message").getD .jnull) "content") then
      .ok (parseContentOrRaw ((jget ((jget response "message").getD .jnull) "content").getD .jnull))
    else
      match parseJson (jsonStringifyC response) with
      | some v => .ok v
      | none => .ok (.jobj [("raw_response", response)])

/-- Lines 619-679 including the outer catch: a `JSON.parse` exception inside
the cascade yields `{ raw_response: response, error: "Failed to parse
response as JSON" }`. -/
def aiParseResult (response : Json) : Json :=
  match aiParseCore response with
  | .ok r => r
  | .error _ =>
    .jobj [("raw_response", response), ("error", .jstr "Failed to parse response as JSON")]

/-- Line 682: `!result || (typeof result === 'object' &&
Object.keys(result).length === 0)` — falsy, empty object, or empty array. -/
def p5EmptyResult (r : Json) : Bool :=
  !jsTruthy r ||
    (match r with
     | .jobj [] => true
     | .jarr [] => true
     | _ => false)

/-- Error exit of `handleProcessRequest` (part_005 lines 694-702): status
`error`, in-memory `result` null, `error` prefixed `Analysis failed: `,
HTTP 500. -/
def p5Fail (m : String) : P5State × HttpResponse :=
  ({ status := .error, result := none, error := some ("Analysis failed: " ++ m) },
   { httpStatus := 500,
     body := .jobj [("status", .jstr "error"),
                    ("error", .jstr ("Analysis failed: " ++ m))] })

/-- Lines 556-692 for an already-built prompt: run the shape fallbacks,
reject a falsy response, run the parse cascade, reject an empty result,
otherwise store it and complete. -/
def p5RunAi (ai : AiOracle) (promptToUse : String) : P5State × HttpResponse :=
  match tryFormats ai promptToUse with
  | .error m => p5Fail m
  | .ok response =>
    if !jsTruthy response then p5Fail "AI returned an empty response"
    else
      let result := aiParseResult response
      if p5EmptyResult result then p5Fail "AI returned an empty or invalid result"
      else
        ({ status := .complete, result := some result, error := none },
         { httpStatus := 200,
           body := .jobj [("status", .jstr "complete"), ("result", result)] })

/-- Message a failed `atob` raises, surfaced through the catch block.
(The concrete `DOMException` text is environment-specific; only its
existence matters to the model.) -/
def atobErrorMessage : String :=
  "The string to be decoded is not correctly encoded."

/-- part_005 `handleProcessRequest` (lines 503-703). The state parameter is
the state at entry; note lines 504-507 overwrite it unconditionally before
any check. `envAiAvailable` models `!!this.env.AI`. -/
def p5HandleProcessRequest (_st : P5State) (req : P5Request)
    (envAiAvailable : Bool) (ai : AiOracle) : P5State × HttpResponse :=
  match req with
  | .malformed m => p5Fail m
  | .json b =>
    if !envAiAvailable then p5Fail "AI binding is not available in this environment"
    else if b.reqType = "analysis" then
      match jsAtob b.pcap_data with
      | none => p5Fail atobErrorMessage
      | some bytes =>
        p5RunAi ai (formatPromptAnalysis (extractPcapSnippet bytes 2048) b.file_name)
    else if b.reqType = "comparison" then
      match jsAtob b.pcap_data1 with
      | none => p5Fail atobErrorMessage
      | some bytes1 =>
        match jsAtob b.pcap_data2 with
        | none => p5Fail atobErrorMessage
        | some bytes2 =>
          p5RunAi ai (formatPromptComparison (extractPcapSnippet bytes1 2048)
            (extractPcapSnippet bytes2 2048) b.file_name1 b.file_name2)
    else
      ({ status := .error, result := none, error := some "Invalid analysis type provided." },
       { httpStatus := 400,
         body := .jobj [("status", .jstr "error"),
                        ("error", .jstr "Invalid analysis type provided.")] })

/-- part_005 `handleStatusRequest` (lines 478-486): read-only. -/
def p5HandleStatusRequest (st : P5State) : P5State × HttpResponse :=
  (st,
   { httpStatus := 200,
     body := .jobj [("status", .jstr (statusString st.status)),
                    ("result", st.result.getD .jnull),
                    ("error", (st.error.map Json.jstr).getD .jnull)] })

/-- States a part_005 job can be in: the constructor state closed under the
process and status handlers (any request, any environment, any oracle). -/
inductive P5Reachable : P5State → Prop where
  | init : P5Reachable p5InitialState
  | step (st : P5State) (req : P5Request) (envAi : Bool) (ai : AiOracle) :
      P5Reachable st → P5Reachable (p5HandleProcessRequest st req envAi ai).1
  | statusRead (st : P5State) :
      P5Reachable st → P5Reachable (p5HandleStatusRequest st).1

/-! ## part_008 `AnalysisObject` (handler with 409 guard, async worker) -/

/-- In-memory state of the part_008 object: there is no separate `error`
field — errors are stored inside `result`. -/
structure P8State where
  status : Status
  result : Json
deriving Repr

/-- Constructor state (part_008 lines 14-20): `idle`, `result = {}`. -/
def p8InitialState : P8State :=
  { status := .idle, result := .jobj [] }

/-- Parsed body of an analyze request; `none` models a missing field. -/
structure P8Body where
  pcap_data : Option String
  file_name : Option String
  llm_model_key : Option String

/-- Parsed body of a compare request. -/
structure P8CompareBody where
  pcap_data1 : Option String
  pcap_data2 : Option String
  file_name1 : Option String
  file_name2 : Option String
  llm_model_key : Option String

/-- A request body: `malformed m` models `request.json()` throwing. -/
inductive P8Request where
  | malformed : String → P8Request
  | json : P8Body → P8Request

inductive P8CompareRequest where
  | malformed : String → P8CompareRequest
  | json : P8CompareBody → P8CompareRequest

/-- Falsiness of a possibly-missing string field (`!pcap_data`). -/
def strFalsy : Option String → Bool
  | none => true
  | some s => decide (s = "")

/-- part_008 `handleAnalyzeRequest` (lines 51-82). Rejects with 409 while
`processing`; on acceptance flips to `processing`, seeds `result` with the
file name, fire-and-forgets `processAnalysis`, answers 202. -/
def p8HandleAnalyzeRequest (st : P8State) (req : P8Request) : P8State × HttpResponse :=
  if st.status = .processing then
    (st, { httpStatus := 409, body := .jstr "Analysis is already in progress." })
  else
    match req with
    | .malformed m =>
      ({ status := .error, result := .jobj [("error", .jstr m)] },
       { httpStatus := 500, body := .jobj [("error", .jstr m)] })
    | .json b =>
      if strFalsy b.pcap_data || strFalsy b.file_name || strFalsy b.llm_model_key then
        ({ status := .error, result := .jobj [("error", .jstr "Missing required parameters.")] },
         { httpStatus := 400, body := .jobj [("error", .jstr "Missing required parameters.")] })
      else
        ({ status := .processing, result := .jobj [("file_name", .jstr (b.file_name.getD ""))] },
         { httpStatus := 202, body := .jobj [("status", .jstr "started")] })

/-- part_008 `handleCompareRequest` (lines 84-114). -/
def p8HandleCompareRequest (st : P8State) (req : P8CompareRequest) : P8State × HttpResponse :=
  if st.status = .processing then
    (st, { httpStatus := 409, body := .jstr "Comparison is already in progress." })
  else
    match req with
    | .malformed m =>
      ({ status := .error, result := .jobj [("error", .jstr m)] },
       { httpStatus := 500, body := .jobj [("error", .jstr m)] })
    | .json b =>
      if strFalsy b.pcap_data1 || strFalsy b.pcap_data2 || strFalsy b.file_name1
          || strFalsy b.file_name2 || strFalsy b.llm_model_key then
        ({ status := .error, result := .jobj [("error", .jstr "Missing required parameters.")] },
         { httpStatus := 400, body := .jobj [("error", .jstr "Missing required parameters.")] })
      else
        ({ status := .processing,
           result := .jobj [("file_name1", .jstr (b.file_name1.getD "")),
                            ("file_name2", .jstr (b.file_name2.getD ""))] },
         { httpStatus := 202, body := .jobj [("status", .jstr "started")] })

/-- part_008 `LLMService.callLLM` (lines 168-186): an unknown model key
throws before the AI binding is reached; otherwise the structured AI call's
outcome decides. -/
def p8CallLLM (modelKeys : List String) (modelKey : String)
    (aiOutcome : Except String Json) : Except String Json :=
  if modelKeys.contains modelKey then aiOutcome
  else .error ("Model with key " ++ modelKey ++ " not found in config.")

/-- part_008 `processAnalysis` (lines 116-135), the detached continuation of
an accepted analyze request: on success sets `result.report` and completes,
on failure stores the message in `result.error` and errors. -/
def p8ProcessAnalysis (st : P8State) (llm : Except String Json) : P8State :=
  match llm with
  | .ok response =>
    { status := .complete, result := jsetKey st.result "report" response }
  | .error m =>
    { status := .error,
      result := jsetKey st.result "error" (.jstr ("LLM analysis failed: " ++ m)) }

/-- part_008 `processComparison` (lines 137-157). -/
def p8ProcessComparison (st : P8State) (llm : Except String Json) : P8State :=
  match llm with
  | .ok response =>
    { status := .complete, result := jsetKey st.result "report" response }
  | .error m =>
    { status := .error,
      result := jsetKey st.result "error" (.jstr ("LLM comparison failed: " ++ m)) }

/-- part_008 `handleStatusRequest` (lines 42-49): read-only. -/
def p8HandleStatusRequest (st : P8State) : P8State × HttpResponse :=
  (st,
   { httpStatus := 200,
     body := .jobj [("status", .jstr (statusString st.status)), ("result", st.result)] })

/-! ## part_004 `AnalysisObject` (guarded handler, synchronous worker) -/

/-- In-memory state of the part_004 object. -/
structure P4State where
  status : Status
  result : Json
deriving Repr

/-- Constructor state (part_004 lines 131-139). -/
def p4InitialState : P4State :=
  { status := .idle, result := .jobj [] }

/-- Parsed body of a part_004 process request (missing fields modelled by
the empty string, which the truthiness check rejects alike). -/
structure P4Body where
  pcap_data : String
  file_name : String
  llm_model_key : String

inductive P4Request where
  | malformed : String → P4Request
  | json : P4Body → P4Request

/-- `${x || 'N/A'}` interpolation of an optional field. -/
def jsFieldOr (v : Json) (k : String) (dflt : String) : String :=
  match jget v k with
  | some w => if jsTruthy w then jsToString w else dflt
  | none => dflt

/-- part_004 `renderReport(report, "analysis", {file_name})` (lines
320-349): the HTML template, with JS template-literal coercions. -/
def p4RenderReport (report : Json) (fileName : String) : String :=
  let anomalies :=
    match jget report "anomalies_and_errors" with
    | some (.jarr (x :: xs)) =>
      "<ul>" ++ String.intercalate ""
        ((x :: xs).map (fun item => "<li>" ++ jsToString item ++ "</li>")) ++ "</ul>"
    | _ => "<p>N/A</p>"
  "\n                <div class=\"report-section\">\n                    <h2>Analysis Report: "
    ++ (if fileName = "" then "File" else fileName)
    ++ "</h2>\n                    <div class=\"summary-card\">\n                        <h3>Summary</h3>\n                        <p>"
    ++ jsFieldOr report "summary" "N/A"
    ++ "</p>\n                    </div>\n                    <div class=\"details-card\">\n                        <h3>Anomalies and Errors</h3>\n                        "
    ++ anomalies
    ++ "\n                    </div>\n                    <div class=\"details-card\">\n                        <h3>SIP/RTP Information</h3>\n                        <p>"
    ++ jsFieldOr report "sip_rtp_info" "N/A"
    ++ "</p>\n                    </div>\n                    <div class=\"details-card\">\n                        <h3>Important Timestamps/Packets</h3>\n                        <p>"
    ++ jsFieldOr report "important_timestamps_packets" "N/A"
    ++ "</p>\n                    </div>\n                </div>\n            "

/-- Modelled message of a `JSON.parse` `SyntaxError` (engine-specific text). -/
def jsParseErrorMessage : String := "Unexpected token in JSON"

/-- part_004 `callLLM` for a Cloudflare-provider model (lines 244-276): the
AI outcome string passes through, a non-string is compactly stringified, a
thrown error is wrapped. Mock providers return fixed JSON; an unknown model
key or provider throws. `provider` is the configured provider of
`modelKey`, `none` when the key is absent from the model catalog. -/
def p4CallLLM (provider : Option String) (aiOutcome : Except String Json)
    (modelKey : String) : Except String String :=
  match provider with
  | none => .error ("Model key \x27" ++ modelKey ++ "\x27 not found.")
  | some p =>
    if p = "Cloudflare" then
      match aiOutcome with
      | .error m => .error ("Failed to call Cloudflare AI: " ++ m)
      | .ok (.jstr s) => .ok s
      | .ok v => .ok (jsonStringifyC v)
    else if p = "Google" then
      .ok (jsonStringifyC (.jobj [
        ("summary", .jstr "This is a mock summary from a Google model."),
        ("anomalies_and_errors", .jarr [.jstr "Mock anomaly 1", .jstr "Mock error 2"]),
        ("sip_rtp_info", .jstr "Mock SIP/RTP info."),
        ("important_timestamps_packets", .jstr "Mock important packets.")]))
    else if p = "OpenAI" then
      .ok (jsonStringifyC (.jobj [
        ("summary", .jstr "This is a mock summary from an OpenAI model."),
        ("anomalies_and_errors", .jarr [.jstr "OpenAI mock anomaly"]),
        ("sip_rtp_info", .jstr "OpenAI mock SIP/RTP info."),
        ("important_timestamps_packets", .jstr "OpenAI mock important packets.")]))
    else if p = "Anthropic" then
      .ok (jsonStringifyC (.jobj [
        ("summary", .jstr "This is a mock summary from an Anthropic model."),
        ("anomalies_and_errors", .jarr [.jstr "Anthropic mock anomaly"]),
        ("sip_rtp_info", .jstr "Anthropic mock SIP/RTP info."),
        ("important_timestamps_packets", .jstr "Anthropic mock important packets.")]))
    else if p = "Deepseek" then
      .ok (jsonStringifyC (.jobj [
        ("summary", .jstr "This is a mock summary from a Deepseek model."),
        ("anomalies_and_errors", .jarr [.jstr "Deepseek mock anomaly"]),
        ("sip_rtp_info", .jstr "Deepseek mock SIP/RTP info."),
        ("important_timestamps_packets", .jstr "Deepseek mock important packets.")]))
    else .error ("LLM provider \x27" ++ p ++ "\x27 is not implemented.")

/-- part_004 `handleProcessRequest` (lines 169-214): any non-`idle` state —
`processing`, `complete` or `error` alike — is rejected with 409 and left
untouched; otherwise the job runs synchronously to `complete` or `error`. -/
def p4HandleProcessRequest (st : P4State) (req : P4Request)
    (provider : Option String) (aiOutcome : Except String Json) : P4State × HttpResponse :=
  if st.status ≠ .idle then
    (st, { httpStatus := 409, body := .jstr "Already processing a request." })
  else
    match req with
    | .malformed m =>
      ({ status := .error, result := .jobj [("error", .jstr m)] },
       { httpStatus := 500, body := .jstr ("Processing failed: " ++ m) })
    | .json b =>
      if b.pcap_data = "" || b.file_name = "" || b.llm_model_key = "" then
        let m := "Missing required parameters: pcap_data, file_name, or llm_model_key."
        ({ status := .error, result := .jobj [("error", .jstr m)] },
         { httpStatus := 500, body := .jstr ("Processing failed: " ++ m) })
      else
        match p4CallLLM provider aiOutcome b.llm_model_key with
        | .error m =>
          ({ status := .error, result := .jobj [("error", .jstr m)] },
           { httpStatus := 500, body := .jstr ("Processing failed: " ++ m) })
        | .ok llmResponse =>
          match parseJson llmResponse with
          | none =>
            ({ status := .error, result := .jobj [("error", .jstr jsParseErrorMessage)] },
             { httpStatus := 500, body := .jstr ("Processing failed: " ++ jsParseErrorMessage) })
          | some reportData =>
            let html := p4RenderReport reportData b.file_name
            ({ status := .complete, result := .jobj [("report", .jstr html)] },
             { httpStatus := 200, body := .jobj [("report", .jstr html)] })

/-- part_004 `handleStatusRequest` (lines 160-167): read-only. -/
def p4HandleStatusRequest (st : P4State) : P4State × HttpResponse :=
  (st,
   { httpStatus := 200,
     body := .jobj [("status", .jstr (statusString st.status)), ("result", st.result)] })

/-! ## `PcapParser.validateFile` (public/config.js lines 166-188, and the
identical copies in part_003) -/

/-- JS `String.prototype.toLowerCase` restricted to ASCII (the repository
compares only ASCII extensions). -/
def charToLower (c : Char) : Char :=
  if 65 ≤ c.toNat && c.toNat ≤ 90 then Char.ofNat (c.toNat + 32) else c

def strToLower (s : String) : String :=
  String.mk (s.data.map charToLower)

/-- JS `String.prototype.endsWith(suffix)`. -/
def strEndsWith (s suffix : String) : Bool :=
  suffix.data.isSuffixOf s.data

/-- A selected file: the handler reads only `name` and `size`; `content`
carries the bytes to make content-independence expressible. -/
structure JsFile where
  name : String
  size : Nat
  content : List Nat

/-- `this.supportedFormats`. -/
def supportedFormats : List String := [".pcap", ".pcapng"]

/-- `this.maxFileSize = 10 * 1024 * 1024`. -/
def maxFileSize : Nat := 10 * 1024 * 1024

/-- `PcapParser.validateFile(file)`: `.error m` models the thrown `Error`,
`.ok true` the `return true`. -/
def validateFile (file : JsFile) : Except String Bool :=
  let isValidFormat := supportedFormats.any (fun fm => strEndsWith (strToLower file.name) fm)
  if !isValidFormat then
    .error ("Unsupported file format. Please use "
      ++ String.intercalate " or " supportedFormats ++ " files.")
  else if maxFileSize < file.size then
    .error ("File size exceeds the maximum limit of "
      ++ String.mk (printNat (maxFileSize / 1024 / 1024)) ++ "MB.")
  else .ok true

/-! ## Polling clients (`Backend.pollStatus` part_010 lines 82-104; the
`script.js` poller part_002 lines 96-115) -/

/-- A decoded status-endpoint reply as the poller reads it. -/
structure StatusMsg where
  status : String
  result : Json
  error : Option String
deriving Repr

/-- What one poll tick does after reading a status reply. -/
inductive PollAction where
  | continuePolling : PollAction
  | resolveWith : Json → PollAction
  | rejectWith : String → PollAction
deriving Repr

/-- The fixed `setInterval` period of `Backend.pollStatus` (part_010 line
102): 1000 ms, for every tick — no backoff. -/
def backendPollIntervalMs : Nat := 1000

/-- The fixed `setTimeout` period of the `script.js` poller (part_002 line
110): 2000 ms. -/
def scriptPollIntervalMs : Nat := 2000

/-- `result.error || 'An unknown error occurred during analysis.'`. -/
def pollErrorMessage (e : Option String) : String :=
  match e with
  | some s => if s = "" then "An unknown error occurred during analysis." else s
  | none => "An unknown error occurred during analysis."

/-- One tick of `Backend.pollStatus` (part_010 lines 91-97): `complete`
resolves with `result.result`, `error` clears the interval and rejects,
anything else leaves the interval running. -/
def pollStep (m : StatusMsg) : PollAction :=
  if m.status = "complete" then .resolveWith m.result
  else if m.status = "error" then .rejectWith (pollErrorMessage m.error)
  else .continuePolling

/-- Run the poll loop over a finite prefix of status replies: `none` means
the loop is still polling after consuming them all (no retry cap ever stops
it). -/
def pollRun : List StatusMsg → Option (Except String Json)
  | [] => none
  | m :: ms =>
    match pollStep m with
    | .continuePolling => pollRun ms
    | .resolveWith r => some (.ok r)
    | .rejectWith e => some (.error e)

/-! ## JSON export (public/app.js `exportJSON`, lines 265-280) -/

/-- `JSON.stringify(this.currentAnalysisData, null, 2)` — the exported file
contents. -/
def exportJSONString (data : Json) : String := jsonStringify2 data

/-- The URI-encoded payload placed after
`data:application/json;charset=utf-8,` in the download link. -/
def exportDataUriPayload (data : Json) : List Char :=
  encodeURIComponent (exportJSONString data).data

/-! ## Derived predicates used by the claims -/

/-- `Backend.arrayBufferToBase64(buffer)` (public/config.js lines 308-317):
the buffer's bytes become a binary string character-by-character and are
passed to `window.btoa`. -/
def arrayBufferToBase64 (bytes : List Nat) : Option String :=
  jsBtoa bytes

/-- `AnalysisObject.b64ToArrayBuffer(base64)` (part_005 lines 705-714):
`atob`, then `charCodeAt` per position into a `Uint8Array`. -/
def b64ToArrayBuffer (s : String) : Option (List Nat) :=
  jsAtob s

/-- A part_005 job's `result` is populated: non-null and carrying actual
content (the constructor's `{}` placeholder and an empty array do not
count, mirroring the emptiness test of line 682). -/
def p5ResultPopulated (st : P5State) : Prop :=
  ∃ v, st.result = some v ∧ p5EmptyResult v = false

/-- The data-model invariant, stated for the part_005 object: `result` is
populated iff `complete`, `error` is set iff `error`. -/
def p5Inv (st : P5State) : Prop :=
  (p5ResultPopulated st ↔ st.status = .complete) ∧
  (st.error.isSome = true ↔ st.status = .error)

/-- The error outcome the spec requires of an upstream failure in part_005:
status `error` with a message, `result` absent. -/
def p5ErrorOutcome (st : P5State) : Prop :=
  st.status = .error ∧ st.result = none ∧
  ∃ m, st.error = some ("Analysis failed: " ++ m)

/-- Conformance of a stored report to the analysis schema's required shape:
all five required keys present and `anomalies_and_errors` an array. -/
def analysisSchemaConformant (v : Json) : Bool :=
  analysisRequiredKeys.all (fun k => jHasKey v k) &&
  (match jget v "anomalies_and_errors" with
   | some (.jarr _) => true
   | _ => false)

/-- The sextet values `b64Encode` emits for a byte list (no padding). -/
def sextetsOf : List Nat → List Nat
  | [] => []
  | [a] => [a / 4, a % 4 * 16]
  | [a, b] => [a / 4, a % 4 * 16 + b / 16, b % 16 * 4]
  | a :: b :: c :: rest =>
      a / 4 :: (a % 4 * 16 + b / 16) :: (b % 16 * 4 + c / 64) :: c % 64 :: sextetsOf rest

/-- How many `=` padding characters `b64Encode` appends. -/
def b64PadCount : List Nat → Nat
  | [] => 0
  | [_] => 2
  | [_, _] => 1
  | _ :: _ :: _ :: rest => b64PadCount rest

/-- The continuation after a printed number must not begin with a digit
(otherwise the maximal-munch digit scan would absorb it). -/
def headNotDigit : List Char → Prop
  | [] => True
  | c :: _ => isDigitChar c = false

mutual
/-- Fuel gauge for `parseValue` on a printed value. -/
def szV : Json → Nat
  | .jnull => 1
  | .jbool _ => 1
  | .jnum _ => 1
  | .jstr _ => 1
  | .jarr xs => 1 + szL xs
  | .jobj fs => 1 + szF fs

/-- Fuel gauge for `parseArrItems` on a printed item list. -/
def szL : List Json → Nat
  | [] => 1
  | x :: xs => 1 + szV x + szL xs

/-- Fuel gauge for `parseObjItems` on printed members. -/
def szF : List (String × Json) → Nat
  | [] => 1
  | (_, v) :: fs => 1 + szV v + szF fs
end

/-! # Theorems -/

/-! ## C6 / C7 — `validateFile` -/

/-- C6: For every file whose size is within the limit, `validateFile`
accepts exactly when the lowercased name ends in `.pcap` or `.pcapng`; the
content bytes are universally quantified and never inspected, so acceptance
is independent of content. -/
theorem c6_validateFile_extension_only (name : String) (size : Nat) (content : List Nat)
    (hsize : size ≤ maxFileSize) :
    (validateFile { name := name, size := size, content := content }).isOk = true ↔
      (strEndsWith (strToLower name) ".pcap" = true ∨ strEndsWith (strToLower name) ".pcapng" = true) := by
  unfold validateFile supportedFormats
  simp only [List.any_cons, List.any_nil, Bool.or_false]
  by_cases h1 : strEndsWith (strToLower name) ".pcap" = true <;>
    by_cases h2 : strEndsWith (strToLower name) ".pcapng" = true <;>
      simp [h1, h2, Except.isOk, Except.toBool, Nat.not_lt.mpr hsize]

/-- Witness for C6 at a concrete accepted and a concrete rejected file. -/
theorem c6_validateFile_extension_only_witness :
    (12 ≤ maxFileSize ∧
      ((validateFile { name := "Trace.PCAP", size := 12, content := [0, 255] }).isOk = true ↔
        (strEndsWith (strToLower "Trace.PCAP") ".pcap" = true ∨
          strEndsWith (strToLower "Trace.PCAP") ".pcapng" = true))) ∧
    ((validateFile { name := "notes.txt", size := 12, content := [0, 255] }).isOk = true ↔
      (strEndsWith (strToLower "notes.txt") ".pcap" = true ∨
        strEndsWith (strToLower "notes.txt") ".pcapng" = true)) :=
  ⟨⟨by decide, c6_validateFile_extension_only "Trace.PCAP" 12 [0, 255] (by decide)⟩,
    c6_validateFile_extension_only "notes.txt" 12 [0, 255] (by decide)⟩

/-- C7: For every file with a valid extension, `validateFile` accepts
exactly when the size is at most `10 * 1024 * 1024` bytes; in particular a
file of exactly 10 MiB is accepted and any strictly larger file is
rejected. -/
theorem c7_validateFile_size_ceiling (name : String) (size : Nat) (content : List Nat)
    (hext : strEndsWith (strToLower name) ".pcap" = true ∨ strEndsWith (strToLower name) ".pcapng" = true) :
    (validateFile { name := name, size := size, content := content }).isOk = true ↔
      size ≤ 10 * 1024 * 1024 := by
  unfold validateFile supportedFormats maxFileSize
  rcases hext with h | h <;>
    · simp only [List.any_cons, List.any_nil, Bool.or_false, h]
      by_cases hs : size ≤ 10 * 1024 * 1024 <;>
        simp [hs, Except.isOk, Except.toBool, Nat.not_lt.mpr, Nat.lt_of_not_le,
          Nat.not_le.mp, hs]

/-- Witness for C7: exactly 10 MiB accepted, one byte more rejected. -/
theorem c7_validateFile_size_ceiling_witness :
    ((strEndsWith (strToLower "a.pcap") ".pcap" = true ∨ strEndsWith (strToLower "a.pcap") ".pcapng" = true) ∧
      ((validateFile { name := "a.pcap", size := 10485760, content := [] }).isOk = true ↔
        10485760 ≤ 10 * 1024 * 1024)) ∧
    ((validateFile { name := "a.pcap", size := 10485761, content := [] }).isOk = true ↔
      10485761 ≤ 10 * 1024 * 1024) :=
  ⟨⟨Or.inl (by decide), c7_validateFile_size_ceiling "a.pcap" 10485760 [] (Or.inl (by decide))⟩,
    c7_validateFile_size_ceiling "a.pcap" 10485761 [] (Or.inl (by decide))⟩

/-! ## C8 — polling client -/

/-- C8: `Backend.pollStatus` re-requests on a fixed 1000 ms `setInterval`
(the `script.js` poller on a fixed 2000 ms `setTimeout`); a tick keeps
polling exactly when the observed status is neither `complete` nor `error`;
`complete` resolves with the reply's `result`, `error` rejects with its
error message; and a reply stream of `processing` statuses of any finite
length leaves the loop still polling — no backoff, no retry cap. -/
theorem c8_poll_fixed_interval_until_terminal :
    backendPollIntervalMs = 1000 ∧ scriptPollIntervalMs = 2000 ∧
    (∀ m : StatusMsg,
      pollStep m = .continuePolling ↔ (m.status ≠ "complete" ∧ m.status ≠ "error")) ∧
    (∀ m : StatusMsg, m.status = "complete" → pollStep m = .resolveWith m.result) ∧
    (∀ m : StatusMsg, m.status = "error" →
      pollStep m = .rejectWith (pollErrorMessage m.error)) ∧
    (∀ ms : List StatusMsg, (∀ m ∈ ms, m.status = "processing") → pollRun ms = none) := by
  refine ⟨rfl, rfl, ?_, ?_, ?_, ?_⟩
  · intro m
    unfold pollStep
    by_cases h1 : m.status = "complete" <;> by_cases h2 : m.status = "error" <;>
      simp [h1, h2]
  · intro m h
    simp [pollStep, h]
  · intro m h
    have hne : m.status ≠ "complete" := by
      rw [h]; decide
    simp [pollStep, h, hne]
  · intro ms hall
    induction ms with
    | nil => rfl
    | cons m tl ih =>
      have hm := hall m (List.mem_cons_self m tl)
      have hstep : pollStep m = .continuePolling := by
        simp [pollStep, hm]
      simp only [pollRun, hstep]
      exact ih (fun x hx => hall x (List.mem_cons_of_mem m hx))

/-- Witness for C8: three `processing` replies keep the loop polling; a
`complete` reply resolves. -/
theorem c8_poll_fixed_interval_until_terminal_witness :
    ((∀ m ∈ ([⟨"processing", .jnull, none⟩, ⟨"processing", .jnull, none⟩,
        ⟨"processing", .jnull, none⟩] : List StatusMsg), StatusMsg.status m = "processing") ∧
      pollRun ([⟨"processing", .jnull, none⟩, ⟨"processing", .jnull, none⟩,
        ⟨"processing", .jnull, none⟩] : List StatusMsg) = none) ∧
    pollStep ⟨"complete", .jobj [("report", .jnull)], none⟩ =
      .resolveWith (.jobj [("report", .jnull)]) :=
  ⟨⟨by intro m hm; simp at hm; simp [hm],
    c8_poll_fixed_interval_until_terminal.2.2.2.2.2 _
      (by intro m hm; simp at hm; simp [hm])⟩,
    c8_poll_fixed_interval_until_terminal.2.2.2.1 _ rfl⟩

/-! ## C1 — conflict rejection on submit while `processing` -/

/-- Counterexample to C1 as stated: the part_005 `handleProcessRequest` has
no conflict check. From a job whose status is `processing`, a valid analysis
submit is answered 200 — not 409 — and the handler runs the job afresh,
ending `complete` with a brand-new result. -/
theorem c1_counterexample :
    (p5HandleProcessRequest { status := .processing, result := none, error := none }
        (.json ⟨"analysis", "", "a.pcap", "", "", "", "", "k"⟩) true
        (fun _ _ => .ok (.jstr "\x7b\x22summary\x22:\x22s\x22\x7d"))).2.httpStatus = 200 ∧
    (p5HandleProcessRequest { status := .processing, result := none, error := none }
        (.json ⟨"analysis", "", "a.pcap", "", "", "", "", "k"⟩) true
        (fun _ _ => .ok (.jstr "\x7b\x22summary\x22:\x22s\x22\x7d"))).2.httpStatus ≠ 409 ∧
    (p5HandleProcessRequest { status := .processing, result := none, error := none }
        (.json ⟨"analysis", "", "a.pcap", "", "", "", "", "k"⟩) true
        (fun _ _ => .ok (.jstr "\x7b\x22summary\x22:\x22s\x22\x7d"))).1.status = .complete ∧
    (p5HandleProcessRequest { status := .processing, result := none, error := none }
        (.json ⟨"analysis", "", "a.pcap", "", "", "", "", "k"⟩) true
        (fun _ _ => .ok (.jstr "\x7b\x22summary\x22:\x22s\x22\x7d"))).1.result =
      some (.jobj [("summary", .jstr "s")]) :=
  ⟨rfl, by decide, rfl, rfl⟩

/-- C1 amended: the conflict rejection holds for the handlers that check —
part_008's `handleAnalyzeRequest` and `handleCompareRequest` and part_004's
`handleProcessRequest` all answer 409 and leave the job untouched while
`processing`; part_005's `handleProcessRequest` performs no such check (see
the counterexample). -/
theorem c1_amended_conflict_rejection (st8 : P8State) (req : P8Request)
    (creq : P8CompareRequest) (st4 : P4State) (req4 : P4Request)
    (provider : Option String) (aiOutcome : Except String Json)
    (h8 : st8.status = .processing) (h4 : st4.status = .processing) :
    p8HandleAnalyzeRequest st8 req =
      (st8, { httpStatus := 409, body := .jstr "Analysis is already in progress." }) ∧
    p8HandleCompareRequest st8 creq =
      (st8, { httpStatus := 409, body := .jstr "Comparison is already in progress." }) ∧
    p4HandleProcessRequest st4 req4 provider aiOutcome =
      (st4, { httpStatus := 409, body := .jstr "Already processing a request." }) := by
  have h4' : st4.status ≠ .idle := by rw [h4]; decide
  refine ⟨?_, ?_, ?_⟩
  · simp [p8HandleAnalyzeRequest, h8]
  · simp [p8HandleCompareRequest, h8]
  · simp [p4HandleProcessRequest, h4']

/-- Witness for the amended C1 at concrete processing states. -/
theorem c1_amended_conflict_rejection_witness :
    (P8State.status ⟨.processing, .jobj [("file_name", .jstr "a.pcap")]⟩ = .processing ∧
      P4State.status ⟨.processing, .jobj []⟩ = .processing) ∧
    (p8HandleAnalyzeRequest ⟨.processing, .jobj [("file_name", .jstr "a.pcap")]⟩
        (.json ⟨some "AA==", some "b.pcap", some "k"⟩) =
      (⟨.processing, .jobj [("file_name", .jstr "a.pcap")]⟩,
        { httpStatus := 409, body := .jstr "Analysis is already in progress." }) ∧
      p8HandleCompareRequest ⟨.processing, .jobj [("file_name", .jstr "a.pcap")]⟩
          (.malformed "boom") =
        (⟨.processing, .jobj [("file_name", .jstr "a.pcap")]⟩,
          { httpStatus := 409, body := .jstr "Comparison is already in progress." }) ∧
      p4HandleProcessRequest ⟨.processing, .jobj []⟩ (.json ⟨"AA==", "b.pcap", "k"⟩)
          (some "Cloudflare") (.ok (.jstr "null")) =
        (⟨.processing, .jobj []⟩,
          { httpStatus := 409, body := .jstr "Already processing a request." })) :=
  ⟨⟨rfl, rfl⟩,
    c1_amended_conflict_rejection _ _ _ _ _ _ _ rfl rfl⟩

/-! ## C2 — result/error populated iff complete/error -/

/-- Counterexample to C2 as stated: in part_008, an accepted analyze submit
leaves the job at status `processing` with `result` already populated (it
holds the file name), so "`result` is populated iff status is `complete`"
fails, and the submit operation does not preserve it. -/
theorem c2_counterexample :
    (p8HandleAnalyzeRequest p8InitialState
        (.json ⟨some "AA==", some "a.pcap", some "k"⟩)).1.status = .processing ∧
    (p8HandleAnalyzeRequest p8InitialState
        (.json ⟨some "AA==", some "a.pcap", some "k"⟩)).1.result =
      .jobj [("file_name", .jstr "a.pcap")] ∧
    jHasKey (p8HandleAnalyzeRequest p8InitialState
        (.json ⟨some "AA==", some "a.pcap", some "k"⟩)).1.result "file_name" = true :=
  ⟨rfl, rfl, rfl⟩

/-- Every exit of part_005's `handleProcessRequest` satisfies the
result/error invariant. -/
theorem p5HandleProcessRequest_inv (st : P5State) (req : P5Request)
    (envAi : Bool) (ai : AiOracle) :
    p5Inv (p5HandleProcessRequest st req envAi ai).1 := by
  have hfail : ∀ m : String, p5Inv (p5Fail m).1 := by
    intro m
    constructor
    · constructor
      · rintro ⟨v, hv, -⟩
        simp [p5Fail] at hv
      · intro h
        simp [p5Fail] at h
    · simp [p5Fail]
  have hrun : ∀ (prompt : String), p5Inv (p5RunAi ai prompt).1 := by
    intro prompt
    unfold p5RunAi
    cases tryFormats ai prompt with
    | error m => exact hfail m
    | ok response =>
      by_cases htr : jsTruthy response
      · by_cases hemp : p5EmptyResult (aiParseResult response) = true
        · simpa [htr, hemp] using hfail "AI returned an empty or invalid result"
        · simp only [htr, Bool.not_true, hemp, if_false, Bool.false_eq_true]
          constructor
          · constructor
            · intro _
              rfl
            · intro _
              exact ⟨aiParseResult response, rfl, by simpa using hemp⟩
          · simp
      · simpa [htr] using hfail "AI returned an empty response"
  cases req with
  | malformed m => exact hfail m
  | json b =>
    unfold p5HandleProcessRequest
    by_cases he : envAi
    · by_cases hta : b.reqType = "analysis"
      · cases hb : jsAtob b.pcap_data with
        | none => simpa [he, hta, hb] using hfail atobErrorMessage
        | some bytes => simpa [he, hta, hb] using hrun _
      · by_cases htc : b.reqType = "comparison"
        · cases hb1 : jsAtob b.pcap_data1 with
          | none => simpa [he, hta, htc, hb1] using hfail atobErrorMessage
          | some bytes1 =>
            cases hb2 : jsAtob b.pcap_data2 with
            | none => simpa [he, hta, htc, hb1, hb2] using hfail atobErrorMessage
            | some bytes2 => simpa [he, hta, htc, hb1, hb2] using hrun _
        · constructor
          · constructor
            · rintro ⟨v, hv, -⟩
              simp [he, hta, htc] at hv
            · intro h
              simp [he, hta, htc] at h
          · simp [he, hta, htc]
    · simpa [he] using hfail "AI binding is not available in this environment"

/-- C2 amended, part one: in the part_005 object every reachable state —
constructor state closed under process and status requests — satisfies the
invariant "`result` populated iff `complete`, `error` set iff `error`"
(where the constructor's `{}` placeholder counts as unpopulated, as the
handler's own emptiness test at line 682 treats it). Part two of the
amendment is the counterexample: part_008 stores the file name in `result`
already at `processing` and keeps the error message inside `result`. -/
theorem c2_amended_invariant (st : P5State) (h : P5Reachable st) : p5Inv st := by
  induction h with
  | init =>
    constructor
    · constructor
      · rintro ⟨v, hv, hemp⟩
        simp only [p5InitialState, Option.some.injEq] at hv
        rw [← hv] at hemp
        simp [p5EmptyResult] at hemp
      · intro h
        simp [p5InitialState] at h
    · simp [p5InitialState]
  | step st req envAi ai _ _ => exact p5HandleProcessRequest_inv st req envAi ai
  | statusRead st _ ih => exact ih

/-- Witness for the amended C2 at the constructor state. -/
theorem c2_amended_invariant_witness : p5Inv p5InitialState :=
  c2_amended_invariant p5InitialState P5Reachable.init

/-! ## C3 — terminality of `complete`/`error` -/

/-- Counterexample to C3 as stated: in part_005, a job at status `complete`
accepts a further submit — here one with an invalid `type` — and its status
changes to `error`, so `complete` is not terminal. -/
theorem c3_counterexample :
    (p5HandleProcessRequest
        { status := .complete, result := some (.jobj [("x", .jnum 1)]), error := none }
        (.json ⟨"bogus", "", "", "", "", "", "", ""⟩) true
        (fun _ _ => .ok .jnull)).1.status = .error ∧
    (p5HandleProcessRequest
        { status := .complete, result := some (.jobj [("x", .jnum 1)]), error := none }
        (.json ⟨"bogus", "", "", "", "", "", "", ""⟩) true
        (fun _ _ => .ok .jnull)).1.status ≠ .complete :=
  ⟨rfl, by decide⟩

/-- C3 amended: `complete` and `error` are terminal in the part_004 object —
any further process request is rejected with 409 leaving the state
untouched, and a status request never mutates — while in part_005 (and
part_008, whose guard only covers `processing`) a later submit is accepted
and restarts the job (see the counterexample). -/
theorem c3_amended_terminal_in_part004 (st : P4State) (req : P4Request)
    (provider : Option String) (aiOutcome : Except String Json)
    (h : st.status = .complete ∨ st.status = .error) :
    p4HandleProcessRequest st req provider aiOutcome =
      (st, { httpStatus := 409, body := .jstr "Already processing a request." }) ∧
    (p4HandleStatusRequest st).1 = st := by
  have hne : st.status ≠ .idle := by
    rcases h with h | h <;> rw [h] <;> decide
  exact ⟨by simp [p4HandleProcessRequest, hne], rfl⟩

/-- Witness for the amended C3 at a concrete completed job. -/
theorem c3_amended_terminal_in_part004_witness :
    (P4State.status ⟨.complete, .jobj [("report", .jstr "<div/>")]⟩ = .complete ∨
      P4State.status ⟨.complete, .jobj [("report", .jstr "<div/>")]⟩ = .error) ∧
    (p4HandleProcessRequest ⟨.complete, .jobj [("report", .jstr "<div/>")]⟩
        (.json ⟨"AA==", "b.pcap", "k"⟩) (some "Cloudflare") (.ok (.jstr "null")) =
      (⟨.complete, .jobj [("report", .jstr "<div/>")]⟩,
        { httpStatus := 409, body := .jstr "Already processing a request." }) ∧
      (p4HandleStatusRequest ⟨.complete, .jobj [("report", .jstr "<div/>")]⟩).1 =
        ⟨.complete, .jobj [("report", .jstr "<div/>")]⟩) :=
  ⟨Or.inl rfl, c3_amended_terminal_in_part004 _ _ _ _ (Or.inl rfl)⟩

/-! ## C5 — upstream failure yields `error` with absent result -/

/-- Assigning one key leaves lookups of a different key unchanged. -/
theorem jget_jsetKey_ne (o : Json) (k k' : String) (v : Json) (h : k ≠ k') :
    jget (jsetKey o k v) k' = jget o k' := by
  cases o with
  | jobj fs =>
    simp only [jsetKey, jget]
    induction fs with
    | nil => simp [jsAssignFields, lookupFirst, h]
    | cons f tl ih =>
      obtain ⟨fk, fv⟩ := f
      by_cases hk : fk = k
      · subst hk
        simp [jsAssignFields, lookupFirst, h]
      · simp [jsAssignFields, hk, lookupFirst, ih]
  | jnull => rfl
  | jbool b => rfl
  | jnum n => rfl
  | jstr s => rfl
  | jarr xs => rfl

/-- When every request shape throws, the fallback chain throws the composed
message built from the last (`text`) shape's error. -/
theorem tryFormats_all_fail (ai : AiOracle) (promptToUse : String)
    (h : ∀ sh p, ∃ m, ai sh p = .error m) :
    ∃ m, tryFormats ai promptToUse =
      .error ("All input formats failed. Last error: " ++ m) := by
  obtain ⟨m1, h1⟩ := h .input promptToUse
  obtain ⟨m2, h2⟩ := h .prompt promptToUse
  obtain ⟨m3, h3⟩ := h .messages promptToUse
  obtain ⟨m4, h4⟩ := h .text promptToUse
  exact ⟨m4, by simp [tryFormats, h1, h2, h3, h4]⟩

/-- `p5Fail` produces exactly the C5 outcome. -/
theorem p5Fail_outcome (m : String) : p5ErrorOutcome (p5Fail m).1 :=
  ⟨rfl, rfl, m, rfl⟩

/-- On an analysis request whose payload decodes, the part_005 handler is
the AI pipeline on the formatted prompt. -/
theorem p5Handle_analysis_eq_runAi (st : P5State) (b : P5Body) (ai : AiOracle)
    (bytes : List Nat) (hty : b.reqType = "analysis")
    (hb : jsAtob b.pcap_data = some bytes) :
    p5HandleProcessRequest st (.json b) true ai =
      p5RunAi ai (formatPromptAnalysis (extractPcapSnippet bytes 2048) b.file_name) := by
  simp [p5HandleProcessRequest, hty, hb]

/-- C5: every failure of the external model call in part_005 — all four
request-shape fallbacks throwing, a falsy (empty) response, or a response
whose parsed form is empty/invalid — drives the job to status `error`
carrying an `Analysis failed: ...` message with `result` null; and in
part_008's detached `processAnalysis`, a failed LLM call yields status
`error` whose `result` still carries no `report` data. -/
theorem c5_upstream_failure_yields_error (st : P5State) (b : P5Body) (ai : AiOracle)
    (hty : b.reqType = "analysis") (hdec : (jsAtob b.pcap_data).isSome = true) :
    ((∀ sh p, ∃ m, ai sh p = .error m) →
      p5ErrorOutcome (p5HandleProcessRequest st (.json b) true ai).1) ∧
    (∀ r, (∀ sh p, ai sh p = .ok r) → jsTruthy r = false →
      p5ErrorOutcome (p5HandleProcessRequest st (.json b) true ai).1) ∧
    (∀ r, (∀ sh p, ai sh p = .ok r) → jsTruthy r = true →
      p5EmptyResult (aiParseResult r) = true →
      p5ErrorOutcome (p5HandleProcessRequest st (.json b) true ai).1) ∧
    (∀ (st8 : P8State) (m : String),
      (p8ProcessAnalysis st8 (.error m)).status = .error ∧
      jHasKey (p8ProcessAnalysis st8 (.error m)).result "report" =
        jHasKey st8.result "report") := by
  obtain ⟨bytes, hb⟩ := Option.isSome_iff_exists.mp hdec
  rw [p5Handle_analysis_eq_runAi st b ai bytes hty hb]
  refine ⟨?_, ?_, ?_, ?_⟩
  · intro hfail
    obtain ⟨m, hm⟩ := tryFormats_all_fail ai
      (formatPromptAnalysis (extractPcapSnippet bytes 2048) b.file_name) hfail
    simpa [p5RunAi, hm] using
      p5Fail_outcome ("All input formats failed. Last error: " ++ m)
  · intro r hok htr
    have ht : tryFormats ai
        (formatPromptAnalysis (extractPcapSnippet bytes 2048) b.file_name) = .ok r := by
      simp [tryFormats, hok]
    simpa [p5RunAi, ht, htr] using p5Fail_outcome "AI returned an empty response"
  · intro r hok htr hemp
    have ht : tryFormats ai
        (formatPromptAnalysis (extractPcapSnippet bytes 2048) b.file_name) = .ok r := by
      simp [tryFormats, hok]
    simpa [p5RunAi, ht, htr, hemp]
      using p5Fail_outcome "AI returned an empty or invalid result"
  · intro st8 m
    refine ⟨rfl, ?_⟩
    simp only [p8ProcessAnalysis, jHasKey]
    rw [jget_jsetKey_ne st8.result "error" "report" _ (by decide)]

/-- Witness for C5: with every shape throwing `boom`, a concrete analysis
submit ends in the required error outcome. -/
theorem c5_upstream_failure_yields_error_witness :
    p5ErrorOutcome (p5HandleProcessRequest p5InitialState
      (.json ⟨"analysis", "", "a.pcap", "", "", "", "", "k"⟩) true
      (fun _ _ => .error "boom")).1 :=
  (c5_upstream_failure_yields_error p5InitialState
      ⟨"analysis", "", "a.pcap", "", "", "", "", "k"⟩ (fun _ _ => .error "boom")
      rfl rfl).1 (fun _ _ => ⟨"boom", rfl⟩)

/-! ## C4 — schema shape of a completing result -/

/-- Counterexample to C4 as stated: a plain-text model reply (`"hello"`)
leads the part_005 job to `complete`, but the stored result is the salvage
object `{ raw_response: "hello" }`, which carries none of the five schema
keys. -/
theorem c4_counterexample :
    (p5HandleProcessRequest p5InitialState
        (.json ⟨"analysis", "", "a.pcap", "", "", "", "", "k"⟩) true
        (fun _ _ => .ok (.jstr "hello"))).1.status = .complete ∧
    (p5HandleProcessRequest p5InitialState
        (.json ⟨"analysis", "", "a.pcap", "", "", "", "", "k"⟩) true
        (fun _ _ => .ok (.jstr "hello"))).1.result =
      some (.jobj [("raw_response", .jstr "hello")]) ∧
    analysisRequiredKeys.all
      (fun k => jHasKey (.jobj [("raw_response", .jstr "hello")]) k) = false :=
  ⟨rfl, rfl, rfl⟩

/-- A value owning a key is a non-empty object. -/
theorem jHasKey_jobj_cons (v : Json) (k : String) (h : jHasKey v k = true) :
    ∃ f fs, v = .jobj (f :: fs) := by
  cases v with
  | jobj fs =>
    cases fs with
    | nil => simp [jHasKey, jget, lookupFirst] at h
    | cons f tl => exact ⟨f, tl, rfl⟩
  | jnull => simp [jHasKey, jget] at h
  | jbool b => simp [jHasKey, jget] at h
  | jnum n => simp [jHasKey, jget] at h
  | jstr s => simp [jHasKey, jget] at h
  | jarr xs => simp [jHasKey, jget] at h

/-- C4 amended: a reply that completes the job stores a non-falsy, non-empty
value, but need not match the schema (counterexample: a non-JSON reply
completes as `{ raw_response: ... }`). When the model reply is a string that
parses directly as JSON conforming to the schema's required shape, the
stored result is exactly that object: it carries all five required keys and
its `anomalies_and_errors` is an array. -/
theorem c4_amended_schema_on_conforming_reply (st : P5State) (b : P5Body)
    (ai : AiOracle) (s : String) (v : Json)
    (hty : b.reqType = "analysis") (hdec : (jsAtob b.pcap_data).isSome = true)
    (hai : ∀ p, ai .input p = .ok (.jstr s))
    (hparse : parseJson s = some v)
    (hconf : analysisSchemaConformant v = true) :
    (p5HandleProcessRequest st (.json b) true ai).1 =
      { status := .complete, result := some v, error := none } ∧
    analysisRequiredKeys.all (fun k => jHasKey v k) = true ∧
    (∃ items, jget v "anomalies_and_errors" = some (.jarr items)) := by
  obtain ⟨bytes, hb⟩ := Option.isSome_iff_exists.mp hdec
  have hconf2 := hconf
  unfold analysisSchemaConformant at hconf2
  rw [Bool.and_eq_true] at hconf2
  have hkeys : analysisRequiredKeys.all (fun k => jHasKey v k) = true := hconf2.1
  have harr : ∃ items, jget v "anomalies_and_errors" = some (.jarr items) := by
    have h2 := hconf2.2
    revert h2
    cases hg : jget v "anomalies_and_errors" with
    | none => simp
    | some w =>
      cases w <;> simp
  have hsum : jHasKey v "summary" = true := by
    have := hkeys
    simp [analysisRequiredKeys, List.all_cons] at this
    exact this.1
  obtain ⟨f, fs, hv⟩ := jHasKey_jobj_cons v "summary" hsum
  have hne : s ≠ "" := by
    intro hs
    rw [hs] at hparse
    simp [parseJson, parseValue, skipWs] at hparse
  have ht : tryFormats ai
      (formatPromptAnalysis (extractPcapSnippet bytes 2048) b.file_name) =
        .ok (.jstr s) := by
    simp [tryFormats, hai]
  have hcore : aiParseResult (.jstr s) = v := by
    simp [aiParseResult, aiParseCore, hparse]
  have hemp : p5EmptyResult v = false := by
    rw [hv]
    simp [p5EmptyResult, jsTruthy]
  rw [p5Handle_analysis_eq_runAi st b ai bytes hty hb]
  unfold p5RunAi
  rw [ht]
  have htr : jsTruthy (.jstr s) = true := by simp [jsTruthy, hne]
  simp only [htr, Bool.not_true, Bool.false_eq_true, if_false, hcore, hemp]
  exact ⟨trivial, hkeys, harr⟩

/-- Witness for the amended C4 on a concrete schema-conforming reply. -/
theorem c4_amended_schema_on_conforming_reply_witness :
    (p5HandleProcessRequest p5InitialState
        (.json ⟨"analysis", "", "a.pcap", "", "", "", "", "k"⟩) true
        (fun _ _ => .ok (.jstr "\x7b\x22summary\x22:\x22s\x22,\x22protocol_distribution\x22:\x7b\x7d,\x22anomalies_and_errors\x22:[],\x22sip_rtp_info\x22:\x22N/A\x22,\x22important_timestamps_packets\x22:\x22N/A\x22\x7d"))).1 =
      { status := .complete,
        result := some (.jobj [("summary", .jstr "s"), ("protocol_distribution", .jobj []),
          ("anomalies_and_errors", .jarr []), ("sip_rtp_info", .jstr "N/A"),
          ("important_timestamps_packets", .jstr "N/A")]),
        error := none } ∧
    analysisRequiredKeys.all
      (fun k => jHasKey (.jobj [("summary", .jstr "s"), ("protocol_distribution", .jobj []),
        ("anomalies_and_errors", .jarr []), ("sip_rtp_info", .jstr "N/A"),
        ("important_timestamps_packets", .jstr "N/A")]) k) = true ∧
    (∃ items, jget (.jobj [("summary", .jstr "s"), ("protocol_distribution", .jobj []),
        ("anomalies_and_errors", .jarr []), ("sip_rtp_info", .jstr "N/A"),
        ("important_timestamps_packets", .jstr "N/A")]) "anomalies_and_errors" =
      some (.jarr items)) :=
  c4_amended_schema_on_conforming_reply p5InitialState
    ⟨"analysis", "", "a.pcap", "", "", "", "", "k"⟩ _ _ _
    rfl rfl (fun _ => rfl) rfl rfl

/-! ## C10 — base64 transport round trip -/

/-- The encoder output is its sextet characters followed by its padding. -/
theorem b64Encode_eq :
    ∀ bytes : List Nat,
      b64Encode bytes = (sextetsOf bytes).map b64Char
        ++ List.replicate (b64PadCount bytes) '='
  | [] => rfl
  | [_] => rfl
  | [_, _] => rfl
  | a :: b :: c :: rest => by
      simp [b64Encode, sextetsOf, b64PadCount, b64Encode_eq rest]

/-- Sextets of in-range bytes are in range for the alphabet. -/
theorem sextetsOf_lt :
    ∀ bytes : List Nat, (∀ b ∈ bytes, b < 256) → ∀ v ∈ sextetsOf bytes, v < 64
  | [], _, v, hv => by simp [sextetsOf] at hv
  | [a], h, v, hv => by
      have ha : a < 256 := h a (by simp)
      simp [sextetsOf] at hv
      rcases hv with rfl | rfl <;> omega
  | [a, b], h, v, hv => by
      have ha : a < 256 := h a (by simp)
      have hbb : b < 256 := h b (by simp)
      simp [sextetsOf] at hv
      rcases hv with rfl | rfl | rfl <;> omega
  | a :: b :: c :: rest, h, v, hv => by
      have ha : a < 256 := h a (by simp)
      have hbb : b < 256 := h b (by simp)
      have hc : c < 256 := h c (by simp)
      have ih := sextetsOf_lt rest (fun x hx => h x (by simp [hx]))
      simp only [sextetsOf, List.mem_cons] at hv
      rcases hv with rfl | rfl | rfl | rfl | hv
      · omega
      · omega
      · omega
      · omega
      · exact ih v hv

/-- Decoding the emitted sextets recovers the bytes. -/
theorem b64DecodeSextets_sextetsOf :
    ∀ bytes : List Nat, (∀ b ∈ bytes, b < 256) →
      b64DecodeSextets (sextetsOf bytes) = some bytes
  | [], _ => rfl
  | [a], h => by
      have ha : a < 256 := h a (by simp)
      simp only [sextetsOf, b64DecodeSextets, Option.some.injEq, List.cons.injEq,
        and_true]
      omega
  | [a, b], h => by
      have ha : a < 256 := h a (by simp)
      have hbb : b < 256 := h b (by simp)
      simp only [sextetsOf, b64DecodeSextets, Option.some.injEq, List.cons.injEq,
        and_true]
      constructor <;> omega
  | a :: b :: c :: rest, h => by
      have ha : a < 256 := h a (by simp)
      have hbb : b < 256 := h b (by simp)
      have hc : c < 256 := h c (by simp)
      have ih := b64DecodeSextets_sextetsOf rest (fun x hx => h x (by simp [hx]))
      simp only [sextetsOf, b64DecodeSextets, ih, Option.some.injEq, List.cons.injEq]
      refine ⟨by omega, by omega, by omega, trivial⟩

/-- Padding never exceeds two characters. -/
theorem b64PadCount_le :
    ∀ bytes : List Nat, b64PadCount bytes ≤ 2
  | [] => by simp [b64PadCount]
  | [_] => by simp [b64PadCount]
  | [_, _] => by simp [b64PadCount]
  | _ :: _ :: _ :: rest => by
      simpa [b64PadCount] using b64PadCount_le rest

/-- Sextet count plus padding is always a whole number of groups. -/
theorem sextets_len_pad :
    ∀ bytes : List Nat, ((sextetsOf bytes).length + b64PadCount bytes) % 4 = 0
  | [] => by simp [sextetsOf, b64PadCount]
  | [_] => by simp [sextetsOf, b64PadCount]
  | [_, _] => by simp [sextetsOf, b64PadCount]
  | a :: b :: c :: rest => by
      have ih := sextets_len_pad rest
      simp only [sextetsOf, b64PadCount, List.length_cons]
      omega

/-- The alphabet inverse recovers each in-range sextet. -/
theorem b64CharVal_b64Char : ∀ n, n < 64 → b64CharVal (b64Char n) = some n := by
  decide

/-- Alphabet characters are not ASCII whitespace. -/
theorem b64Char_not_ws : ∀ n, n < 64 → isAsciiWs (b64Char n) = false := by
  decide

/-- Alphabet characters are never the padding character. -/
theorem b64Char_ne_pad : ∀ n, n < 64 → b64Char n ≠ '=' := by
  decide

/-- `b64Vals` inverts `map b64Char` on in-range sextets. -/
theorem b64Vals_map (vs : List Nat) (h : ∀ v ∈ vs, v < 64) :
    b64Vals (vs.map b64Char) = some vs := by
  induction vs with
  | nil => rfl
  | cons v tl ih =>
    have hv : v < 64 := h v (by simp)
    simp only [List.map_cons, b64Vals, b64CharVal_b64Char v hv,
      ih (fun x hx => h x (by simp [hx]))]

/-- `splitPad` splits encoder output back into sextet characters and the
padding count. -/
theorem splitPad_encode (body : List Char) (n : Nat) (hb : ∀ c ∈ body, c ≠ '=') :
    splitPad (body ++ List.replicate n '=') = (body, n) := by
  simp only [splitPad]
  rw [List.reverse_append, List.reverse_replicate]
  have htw : (List.replicate n '=' ++ body.reverse).takeWhile
      (fun c => c = '=') = List.replicate n '=' := by
    induction n with
    | zero =>
      simp only [List.replicate, List.nil_append]
      cases hbr : body.reverse with
      | nil => rfl
      | cons hd tl =>
        have hmem : hd ∈ body := by
          rw [← List.mem_reverse, hbr]
          simp
        simp [List.takeWhile, hb hd hmem]
    | succ k ih =>
      simp only [List.replicate, List.cons_append, List.takeWhile]
      simp [ih]
  rw [htw]
  simp only [List.length_replicate]
  rw [List.drop_left' (by simp), List.reverse_reverse]

/-- C10: the transport encoding round-trips — for every byte buffer, the
client's `arrayBufferToBase64` succeeds and the server's `b64ToArrayBuffer`
recovers exactly the uploaded bytes. -/
theorem c10_base64_roundtrip (bytes : List Nat) (h : ∀ b ∈ bytes, b < 256) :
    arrayBufferToBase64 bytes = some (String.mk (b64Encode bytes)) ∧
    b64ToArrayBuffer (String.mk (b64Encode bytes)) = some bytes := by
  constructor
  · unfold arrayBufferToBase64 jsBtoa
    have hany : bytes.any (fun b => decide (255 < b)) = false := by
      rw [List.any_eq_false]
      intro x hx
      simpa using Nat.not_lt.mpr (Nat.le_of_lt_succ (h x hx))
    simp [hany]
  · have hlt := sextetsOf_lt bytes h
    have hmem : ∀ c ∈ b64Encode bytes, isAsciiWs c = false := by
      intro c hc
      rw [b64Encode_eq] at hc
      rcases List.mem_append.mp hc with hc | hc
      · obtain ⟨v, hv, rfl⟩ := List.mem_map.mp hc
        exact b64Char_not_ws v (hlt v hv)
      · rw [List.eq_of_mem_replicate hc]
        rfl
    have hnopad : ∀ c ∈ (sextetsOf bytes).map b64Char, c ≠ '=' := by
      intro c hc
      obtain ⟨v, hv, rfl⟩ := List.mem_map.mp hc
      exact b64Char_ne_pad v (hlt v hv)
    have hfilter : (b64Encode bytes).filter (fun c => !isAsciiWs c) = b64Encode bytes := by
      rw [List.filter_eq_self]
      intro a ha
      simp [hmem a ha]
    have hple := b64PadCount_le bytes
    have hlp := sextets_len_pad bytes
    have hlen : ((sextetsOf bytes).map b64Char).length = (sextetsOf bytes).length :=
      List.length_map _ _
    have hc1 : ¬ (2 < b64PadCount bytes) := by omega
    have hc2 : ¬ ((b64PadCount bytes ≠ 0) ∧
        (((sextetsOf bytes).map b64Char).length + b64PadCount bytes) % 4 ≠ 0) := by
      rw [hlen]
      omega
    have hc3 : ¬ (((sextetsOf bytes).map b64Char).length % 4 = 1) := by
      rw [hlen]
      omega
    unfold b64ToArrayBuffer
    simp only [jsAtob]
    rw [hfilter, b64Encode_eq, splitPad_encode _ _ hnopad]
    rw [if_neg hc1, if_neg hc2, if_neg hc3]
    rw [b64Vals_map _ hlt]
    exact b64DecodeSextets_sextetsOf bytes h

/-- Witness for C10 on a concrete buffer. -/
theorem c10_base64_roundtrip_witness :
    (∀ b ∈ [0, 77, 255, 16], b < 256) ∧
    (arrayBufferToBase64 [0, 77, 255, 16] =
        some (String.mk (b64Encode [0, 77, 255, 16])) ∧
      b64ToArrayBuffer (String.mk (b64Encode [0, 77, 255, 16])) =
        some [0, 77, 255, 16]) :=
  ⟨by decide, c10_base64_roundtrip [0, 77, 255, 16] (by decide)⟩

/-! ## C9 — JSON export round trip. Part one: the URI encoding. -/

/-- Upper-case hex digits invert. -/
theorem parseHexDigit_upper : ∀ x, x < 16 → parseHexDigit (hexDigitUpper x) = some x := by
  decide

/-- Lower-case hex digits invert. -/
theorem parseHexDigit_lower : ∀ x, x < 16 → parseHexDigit (hexDigitLower x) = some x := by
  decide

/-- The percent sign is itself escaped. -/
theorem uriUnreserved_pct : uriUnreserved '%' = false := by decide

/-- A character's code is a Unicode scalar value: below the surrogate block
or above it and below `0x110000`. -/
theorem char_scalar_range (c : Char) :
    c.toNat < 55296 ∨ (57343 < c.toNat ∧ c.toNat < 1114112) := by
  have h := c.valid
  simpa [UInt32.isValidChar, Nat.isValidChar, Char.toNat] using h

/-- `encodeURIComponent` distributes over cons. -/
theorem encodeURIComponent_cons (c : Char) (cs : List Char) :
    encodeURIComponent (c :: cs) = encURIChar c ++ encodeURIComponent cs := by
  simp [encodeURIComponent]

/-- Every character contributes at least one encoded character. -/
theorem encURIChar_pos (c : Char) : 1 ≤ (encURIChar c).length := by
  unfold encURIChar
  split
  · simp
  · unfold utf8Bytes
    split
    · simp [pctByte]
    · split
      · simp [pctByte]
      · split <;> simp [pctByte]

/-- Decoding inverts encoding, given fuel beyond the encoded length. -/
theorem decodeAux_encode : ∀ (cs : List Char) (fuel : Nat),
    (encodeURIComponent cs).length < fuel →
    decodeURIComponentAux fuel (encodeURIComponent cs) = some cs := by
  intro cs
  induction cs with
  | nil =>
    intro fuel h
    cases fuel with
    | zero => simp [encodeURIComponent] at h
    | succ f => rfl
  | cons c cs ih =>
    intro fuel h
    rw [encodeURIComponent_cons] at h ⊢
    have hpos := encURIChar_pos c
    cases fuel with
    | zero =>
      simp at h
    | succ f =>
      have hf : (encodeURIComponent cs).length < f := by
        rw [List.length_append] at h
        omega
      have hrec := ih f hf
      by_cases hu : uriUnreserved c = true
      · have hc : c ≠ '%' := by
          intro e
          rw [e, uriUnreserved_pct] at hu
          exact Bool.false_ne_true hu
        have he : encURIChar c = [c] := by simp [encURIChar, hu]
        rw [he]
        simp only [List.cons_append, List.nil_append, decodeURIComponentAux,
          if_neg hc]
        simp [hrec]
      · have he : encURIChar c =
            ((utf8Bytes c.toNat).map pctByte).flatten := by
          simp [encURIChar, hu]
        have hsc := char_scalar_range c
        by_cases h1 : c.toNat < 128
        · have hb : utf8Bytes c.toNat = [c.toNat] := by
            unfold utf8Bytes
            rw [if_pos h1]
          rw [he, hb]
          simp only [List.map_cons, List.map_nil, List.flatten_cons,
            List.flatten_nil, pctByte, List.cons_append, List.nil_append,
            List.append_nil]
          simp only [decodeURIComponentAux, if_pos rfl]
          rw [parseHexDigit_upper _ (by omega), parseHexDigit_upper _ (by omega)]
          simp only []
          rw [show c.toNat / 16 * 16 + c.toNat % 16 = c.toNat from by omega]
          simp only [if_true]
          rw [if_pos h1, hrec]
          simp only []
          rw [Char.ofNat_toNat]
        · by_cases h2 : c.toNat < 2048
          · have hb : utf8Bytes c.toNat =
                [192 + c.toNat / 64, 128 + c.toNat % 64] := by
              unfold utf8Bytes
              rw [if_neg h1, if_pos h2]
            rw [he, hb]
            simp only [List.map_cons, List.map_nil, List.flatten_cons,
              List.flatten_nil, pctByte, List.cons_append, List.nil_append,
              List.append_nil]
            simp only [decodeURIComponentAux, if_pos rfl]
            rw [parseHexDigit_upper _ (by omega), parseHexDigit_upper _ (by omega),
              parseHexDigit_upper _ (by omega), parseHexDigit_upper _ (by omega)]
            simp only []
            rw [show (192 + c.toNat / 64) / 16 * 16 + (192 + c.toNat / 64) % 16 =
              192 + c.toNat / 64 from by omega]
            rw [show (128 + c.toNat % 64) / 16 * 16 + (128 + c.toNat % 64) % 16 =
              128 + c.toNat % 64 from by omega]
            simp only [if_true]
            rw [if_neg (by omega), if_neg (by omega), if_pos (by omega)]
            rw [if_pos (by simp only [Bool.and_eq_true, decide_eq_true_eq]; omega)]
            rw [hrec]
            simp only []
            rw [show (192 + c.toNat / 64 - 192) * 64 + (128 + c.toNat % 64 - 128) =
              c.toNat from by omega]
            rw [Char.ofNat_toNat]
          · by_cases h3 : c.toNat < 65536
            · have hb : utf8Bytes c.toNat =
                  [224 + c.toNat / 4096, 128 + c.toNat / 64 % 64,
                    128 + c.toNat % 64] := by
                unfold utf8Bytes
                rw [if_neg h1, if_neg h2, if_pos h3]
              rw [he, hb]
              simp only [List.map_cons, List.map_nil, List.flatten_cons,
                List.flatten_nil, pctByte, List.cons_append, List.nil_append,
                List.append_nil]
              simp only [decodeURIComponentAux, if_pos rfl]
              rw [parseHexDigit_upper _ (by omega), parseHexDigit_upper _ (by omega),
                parseHexDigit_upper _ (by omega), parseHexDigit_upper _ (by omega),
                parseHexDigit_upper _ (by omega), parseHexDigit_upper _ (by omega)]
              simp only []
              rw [show (224 + c.toNat / 4096) / 16 * 16 + (224 + c.toNat / 4096) % 16 =
                224 + c.toNat / 4096 from by omega]
              rw [show (128 + c.toNat / 64 % 64) / 16 * 16
                + (128 + c.toNat / 64 % 64) % 16 = 128 + c.toNat / 64 % 64 from by
                omega]
              rw [show (128 + c.toNat % 64) / 16 * 16 + (128 + c.toNat % 64) % 16 =
                128 + c.toNat % 64 from by omega]
              simp only [if_true]
              rw [if_neg (by omega), if_neg (by omega), if_neg (by omega),
                if_pos (by omega)]
              rw [if_pos (by simp only [Bool.and_eq_true, decide_eq_true_eq]; omega)]
              rw [hrec]
              simp only []
              rw [show (224 + c.toNat / 4096 - 224) * 4096
                + (128 + c.toNat / 64 % 64 - 128) * 64
                + (128 + c.toNat % 64 - 128) = c.toNat from by omega]
              rw [Char.ofNat_toNat]
            · have h4 : c.toNat < 1114112 := by omega
              have hb : utf8Bytes c.toNat =
                  [240 + c.toNat / 262144, 128 + c.toNat / 4096 % 64,
                    128 + c.toNat / 64 % 64, 128 + c.toNat % 64] := by
                unfold utf8Bytes
                rw [if_neg h1, if_neg h2, if_neg h3]
              rw [he, hb]
              simp only [List.map_cons, List.map_nil, List.flatten_cons,
                List.flatten_nil, pctByte, List.cons_append, List.nil_append,
                List.append_nil]
              simp only [decodeURIComponentAux, if_pos rfl]
              rw [parseHexDigit_upper _ (by omega), parseHexDigit_upper _ (by omega),
                parseHexDigit_upper _ (by omega), parseHexDigit_upper _ (by omega),
                parseHexDigit_upper _ (by omega), parseHexDigit_upper _ (by omega),
                parseHexDigit_upper _ (by omega), parseHexDigit_upper _ (by omega)]
              simp only []
              rw [show (240 + c.toNat / 262144) / 16 * 16
                + (240 + c.toNat / 262144) % 16 = 240 + c.toNat / 262144 from by
                omega]
              rw [show (128 + c.toNat / 4096 % 64) / 16 * 16
                + (128 + c.toNat / 4096 % 64) % 16 = 128 + c.toNat / 4096 % 64 from by
                omega]
              rw [show (128 + c.toNat / 64 % 64) / 16 * 16
                + (128 + c.toNat / 64 % 64) % 16 = 128 + c.toNat / 64 % 64 from by
                omega]
              rw [show (128 + c.toNat % 64) / 16 * 16 + (128 + c.toNat % 64) % 16 =
                128 + c.toNat % 64 from by omega]
              simp only [if_true]
              rw [if_neg (by omega), if_neg (by omega), if_neg (by omega),
                if_neg (by omega), if_pos (by omega)]
              rw [if_pos (by simp only [Bool.and_eq_true, decide_eq_true_eq]; omega)]
              rw [hrec]
              simp only []
              rw [show (240 + c.toNat / 262144 - 240) * 262144
                + (128 + c.toNat / 4096 % 64 - 128) * 4096
                + (128 + c.toNat / 64 % 64 - 128) * 64
                + (128 + c.toNat % 64 - 128) = c.toNat from by omega]
              rw [Char.ofNat_toNat]

/-- `decodeURIComponent` inverts `encodeURIComponent`. -/
theorem decode_encode_uri (cs : List Char) :
    decodeURIComponent (encodeURIComponent cs) = some cs :=
  decodeAux_encode cs ((encodeURIComponent cs).length + 1) (by omega)

/-! ## C9, part two: `JSON.parse` inverts `JSON.stringify(·, null, 2)`. -/

/-- Skipping whitespace ignores leading spaces. -/
theorem skipWs_spaces (n : Nat) (cs : List Char) :
    skipWs (List.replicate n ' ' ++ cs) = skipWs cs := by
  induction n with
  | zero => rfl
  | succ k ih => simpa [List.replicate, skipWs, isJsonWs] using ih

/-- Skipping whitespace eats a newline plus indentation. -/
theorem skipWs_nl_indent (d : Nat) (cs : List Char) :
    skipWs ('\n' :: indentChars d ++ cs) = skipWs cs := by
  show skipWs ('\n' :: (indentChars d ++ cs)) = skipWs cs
  rw [show skipWs ('\n' :: (indentChars d ++ cs)) = skipWs (indentChars d ++ cs) from by
    simp [skipWs, isJsonWs]]
  exact skipWs_spaces (2 * d) cs

/-- A non-whitespace head stops the skip. -/
theorem skipWs_head (c : Char) (cs : List Char) (h : isJsonWs c = false) :
    skipWs (c :: cs) = c :: cs := by
  simp [skipWs, h]

/-- `parseValue` only sees its input through `skipWs`. -/
theorem parseValue_congr (fuel : Nat) (a b : List Char) (h : skipWs a = skipWs b) :
    parseValue fuel a = parseValue fuel b := by
  cases fuel with
  | zero => rfl
  | succ f => simp only [parseValue, h]

/-- Likewise for arrays: the first action is a `parseValue`. -/
theorem parseArrItems_congr (fuel : Nat) (a b : List Char) (h : skipWs a = skipWs b) :
    parseArrItems fuel a = parseArrItems fuel b := by
  cases fuel with
  | zero => rfl
  | succ f => simp only [parseArrItems, parseValue_congr f a b h]

/-- Likewise for object members. -/
theorem parseObjItems_congr (fuel : Nat) (a b : List Char) (h : skipWs a = skipWs b) :
    parseObjItems fuel a = parseObjItems fuel b := by
  cases fuel with
  | zero => rfl
  | succ f => simp only [parseObjItems, h]

/-- Digit characters compose and decompose. -/
theorem natDigitChar_isDigit : ∀ d, d < 10 → isDigitChar (natDigitChar d) = true := by
  decide

theorem natDigitChar_val : ∀ d, d < 10 → digitVal (natDigitChar d) = d := by
  decide

theorem natDigitChar_not_ws : ∀ d, d < 10 → isJsonWs (natDigitChar d) = false := by
  decide

theorem natDigitChar_ne_zero : ∀ d, d < 10 → d ≠ 0 → natDigitChar d ≠ '0' := by
  decide

/-- All emitted digits are below ten. -/
theorem digitsOfAux_lt : ∀ (fuel n : Nat), ∀ d ∈ digitsOfAux fuel n, d < 10 := by
  intro fuel
  induction fuel with
  | zero => intro n d hd; simp [digitsOfAux] at hd
  | succ f ih =>
    intro n d hd
    by_cases h : n < 10
    · simp [digitsOfAux, h] at hd
      omega
    · simp only [digitsOfAux, if_neg h, List.mem_append, List.mem_singleton] at hd
      rcases hd with hd | hd
      · exact ih _ _ hd
      · omega

/-- With enough fuel, the digit list is non-empty. -/
theorem digitsOfAux_ne_nil (fuel n : Nat) (h : n < fuel) :
    digitsOfAux fuel n ≠ [] := by
  cases fuel with
  | zero => omega
  | succ f =>
    by_cases h10 : n < 10
    · simp [digitsOfAux, h10]
    · simp [digitsOfAux, h10]

/-- A positive number's leading digit is non-zero. -/
theorem digitsOfAux_head_pos : ∀ (fuel n : Nat), n < fuel → 1 ≤ n →
    ∃ h t, digitsOfAux fuel n = h :: t ∧ h ≠ 0 ∧ h < 10 := by
  intro fuel
  induction fuel with
  | zero => omega
  | succ f ih =>
    intro n hf h1
    by_cases h10 : n < 10
    · exact ⟨n, [], by simp [digitsOfAux, h10], by omega, h10⟩
    · have hq1 : 1 ≤ n / 10 := by omega
      have hqf : n / 10 < f := by
        have := Nat.div_lt_self (by omega : 0 < n) (by omega : 1 < 10)
        omega
      obtain ⟨h, t, he, hz, hlt⟩ := ih (n / 10) hqf hq1
      exact ⟨h, t ++ [n % 10], by simp [digitsOfAux, h10, he], hz, hlt⟩

/-- The fold of the digit accumulator over emitted digits. -/
theorem digitsOfAux_foldl : ∀ (fuel n acc : Nat), n < fuel →
    (digitsOfAux fuel n).foldl (fun a d => a * 10 + d) acc =
      acc * 10 ^ (digitsOfAux fuel n).length + n := by
  intro fuel
  induction fuel with
  | zero => omega
  | succ f ih =>
    intro n acc hf
    by_cases h10 : n < 10
    · simp [digitsOfAux, h10]
    · have hqf : n / 10 < f := by
        have := Nat.div_lt_self (by omega : 0 < n) (by omega : 1 < 10)
        omega
      simp only [digitsOfAux, if_neg h10, List.foldl_append, List.foldl_cons,
        List.foldl_nil, List.length_append, List.length_singleton]
      rw [ih (n / 10) acc hqf]
      rw [pow_succ]
      have := Nat.div_add_mod n 10
      ring_nf
      omega

/-- The digit scan undoes `map natDigitChar` up to a non-digit boundary. -/
theorem parseDigitsAux_map : ∀ (ds : List Nat) (acc : Nat) (rest : List Char),
    (∀ d ∈ ds, d < 10) → headNotDigit rest →
    parseDigitsAux (ds.map natDigitChar ++ rest) acc =
      (ds.foldl (fun a d => a * 10 + d) acc, rest) := by
  intro ds
  induction ds with
  | nil =>
    intro acc rest _ hrest
    cases rest with
    | nil => rfl
    | cons c tl =>
      simp only [headNotDigit] at hrest
      simp [parseDigitsAux, hrest]
  | cons d ds ih =>
    intro acc rest hlt hrest
    have hd : d < 10 := hlt d (by simp)
    simp only [List.map_cons, List.cons_append, parseDigitsAux,
      natDigitChar_isDigit d hd, if_true, natDigitChar_val d hd, List.foldl_cons]
    exact ih _ rest (fun x hx => hlt x (by simp [hx])) hrest

/-- Scanning a printed positive number: digits then boundary. -/
theorem parseDigitsAux_printNat (n : Nat) (rest : List Char) (h : headNotDigit rest) :
    parseDigitsAux (printNat n ++ rest) 0 = (n, rest) := by
  unfold printNat digitsOf
  rw [parseDigitsAux_map _ _ _ (digitsOfAux_lt _ _) h,
    digitsOfAux_foldl _ _ _ (by omega)]
  simp

/-- A digit character is none of the other value-opening tokens. -/
theorem isDigitChar_separates (c : Char) (hdig : isDigitChar c = true) :
    c ≠ 'n' ∧ c ≠ 't' ∧ c ≠ 'f' ∧ c ≠ '"' ∧ c ≠ '[' ∧ c ≠ '{' ∧ c ≠ '-' ∧
      isJsonWs c = false := by
  have hws : isJsonWs c = false := by
    have h1 : c ≠ ' ' := by intro e; subst e; exact absurd hdig (by decide)
    have h2 : c ≠ '\n' := by intro e; subst e; exact absurd hdig (by decide)
    have h3 : c ≠ '\t' := by intro e; subst e; exact absurd hdig (by decide)
    have h4 : c ≠ '\r' := by intro e; subst e; exact absurd hdig (by decide)
    simp [isJsonWs, h1, h2, h3, h4]
  refine ⟨?_, ?_, ?_, ?_, ?_, ?_, ?_, hws⟩ <;>
    (intro e; subst e; exact absurd hdig (by decide))

/-- `parseValue` on a non-zero leading digit is the maximal digit scan. -/
theorem parseValue_digit_head (f : Nat) (c : Char) (tail : List Char)
    (hdig : isDigitChar c = true) (hnz : c ≠ '0') :
    parseValue (f + 1) (c :: tail) =
      some (.jnum ((parseDigitsAux (c :: tail) 0).1 : Int),
        (parseDigitsAux (c :: tail) 0).2) := by
  obtain ⟨hn, ht, hf, hq, hb, hc, hm, hws⟩ := isDigitChar_separates c hdig
  simp only [parseValue]
  rw [skipWs_head _ _ hws]
  split
  · rename_i heq; injection heq with h1 _; exact absurd h1 hn
  · rename_i heq; injection heq with h1 _; exact absurd h1 ht
  · rename_i heq; injection heq with h1 _; exact absurd h1 hf
  · rename_i heq; injection heq with h1 _; exact absurd h1 hq
  · rename_i heq; injection heq with h1 _; exact absurd h1 hb
  · rename_i heq; injection heq with h1 _; exact absurd h1 hc
  · rename_i heq; injection heq with h1 _; exact absurd h1 hm
  · rename_i heq
    injection heq with h1 h2
    subst h1
    subst h2
    rw [if_pos hdig]
    split
    · exact absurd rfl hnz
    · rfl
  · rename_i heq
    exact absurd heq (by simp)

/-- `parseValue` on `'0'` yields zero without absorbing what follows. -/
theorem parseValue_zero_head (f : Nat) (rest : List Char) (h : headNotDigit rest) :
    parseValue (f + 1) ('0' :: rest) = some (.jnum 0, rest) := by
  simp only [parseValue]
  rw [skipWs_head _ _ (by decide)]
  cases rest with
  | nil =>
    simp [parseDigitsAux]
    decide
  | cons r tl =>
    simp only [headNotDigit] at h
    simp [h]
    all_goals decide

/-- `parseValue` on `'-'` then a non-zero digit scans a negative number. -/
theorem parseValue_neg_head (f : Nat) (c : Char) (tail : List Char)
    (hdig : isDigitChar c = true) (hnz : c ≠ '0') :
    parseValue (f + 1) ('-' :: c :: tail) =
      some (.jnum (-((parseDigitsAux (c :: tail) 0).1 : Int)),
        (parseDigitsAux (c :: tail) 0).2) := by
  simp only [parseValue]
  rw [skipWs_head _ _ (by decide)]
  simp only []
  rw [if_pos hdig]
  split
  · rename_i heq
    exact absurd (List.head_eq_of_cons_eq heq) hnz
  · rfl

/-- `parseValue` on `'-' :: '0'` yields negative zero (i.e. zero). -/
theorem parseValue_neg_zero_head (f : Nat) (rest : List Char) (h : headNotDigit rest) :
    parseValue (f + 1) ('-' :: '0' :: rest) = some (.jnum 0, rest) := by
  simp only [parseValue]
  rw [skipWs_head _ _ (by decide)]
  cases rest with
  | nil =>
    simp [parseDigitsAux]
    decide
  | cons r tl =>
    simp only [headNotDigit] at h
    simp [h]
    all_goals decide

/-- The printed form of a number parses back to it (with one fuel step). -/
theorem parseValue_num (i : Int) (f : Nat) (d : Nat) (rest : List Char)
    (h : headNotDigit rest) :
    parseValue (f + 1) (printJson (.jnum i) d ++ rest) = some (.jnum i, rest) := by
  show parseValue (f + 1) (printInt i ++ rest) = some (.jnum i, rest)
  by_cases hneg : i < 0
  · have hn1 : 1 ≤ i.natAbs := by omega
    unfold printInt
    rw [if_pos hneg]
    obtain ⟨hd, t, he, hz, hlt⟩ :=
      digitsOfAux_head_pos (i.natAbs + 1) i.natAbs (by omega) hn1
    have hprint : printNat i.natAbs = natDigitChar hd :: t.map natDigitChar := by
      unfold printNat digitsOf
      rw [he]
      simp
    have hscan : parseDigitsAux (natDigitChar hd :: (t.map natDigitChar ++ rest)) 0 =
        (i.natAbs, rest) := by
      have hpn := parseDigitsAux_printNat i.natAbs rest h
      rw [hprint] at hpn
      simpa using hpn
    rw [hprint]
    show parseValue (f + 1) ('-' :: (natDigitChar hd :: t.map natDigitChar ++ rest)) =
      some (.jnum i, rest)
    rw [show ('-' :: (natDigitChar hd :: t.map natDigitChar ++ rest) : List Char) =
      '-' :: natDigitChar hd :: (t.map natDigitChar ++ rest) from by simp]
    rw [parseValue_neg_head f _ _ (natDigitChar_isDigit hd hlt)
      (natDigitChar_ne_zero hd hlt hz)]
    rw [hscan]
    have : (-(i.natAbs : Int)) = i := by omega
    rw [this]
  · have hval : ((i.natAbs : Int)) = i := by omega
    unfold printInt
    rw [if_neg hneg]
    by_cases h0 : i.natAbs = 0
    · rw [h0]
      rw [show printNat 0 = ['0'] from rfl]
      simp only [List.cons_append, List.nil_append]
      rw [parseValue_zero_head f rest h]
      rw [show (0 : Int) = (i.natAbs : Int) from by omega, hval]
    · obtain ⟨hd, t, he, hz, hlt⟩ :=
        digitsOfAux_head_pos (i.natAbs + 1) i.natAbs (by omega) (by omega)
      have hprint : printNat i.natAbs = natDigitChar hd :: t.map natDigitChar := by
        unfold printNat digitsOf
        rw [he]
        simp
      have hscan : parseDigitsAux (natDigitChar hd :: (t.map natDigitChar ++ rest)) 0 =
          (i.natAbs, rest) := by
        have hpn := parseDigitsAux_printNat i.natAbs rest h
        rw [hprint] at hpn
        simpa using hpn
      rw [hprint]
      rw [show ((natDigitChar hd :: t.map natDigitChar) ++ rest : List Char) =
        natDigitChar hd :: (t.map natDigitChar ++ rest) from by simp]
      rw [parseValue_digit_head f _ _ (natDigitChar_isDigit hd hlt)
        (natDigitChar_ne_zero hd hlt hz)]
      rw [hscan, hval]

/-- A character always occupies at least one UTF-16 code unit. -/
theorem utf16Units_ne_nil (c : Char) : utf16Units c ≠ [] := by
  unfold utf16Units
  split <;> simp


/-- Scanner step: closing quote. -/
theorem parseStrUnits_quote (cs : List Char) (acc : List Nat) :
    parseStrUnits ('"' :: cs) acc = some (acc, cs) := by
  rw [parseStrUnits.eq_def]
  simp

/-- Scanner step: escaped quote. -/
theorem parseStrUnits_escq (cs : List Char) (acc : List Nat) :
    parseStrUnits ('\\' :: '"' :: cs) acc = parseStrUnits cs (34 :: acc) := by
  rw [parseStrUnits.eq_def]
  simp

/-- Scanner step: escaped backslash. -/
theorem parseStrUnits_escb (cs : List Char) (acc : List Nat) :
    parseStrUnits ('\\' :: '\\' :: cs) acc = parseStrUnits cs (92 :: acc) := by
  rw [parseStrUnits.eq_def]
  simp

/-- Scanner step: escaped newline. -/
theorem parseStrUnits_escn (cs : List Char) (acc : List Nat) :
    parseStrUnits ('\\' :: 'n' :: cs) acc = parseStrUnits cs (10 :: acc) := by
  rw [parseStrUnits.eq_def]
  simp

/-- Scanner step: escaped carriage return. -/
theorem parseStrUnits_escr (cs : List Char) (acc : List Nat) :
    parseStrUnits ('\\' :: 'r' :: cs) acc = parseStrUnits cs (13 :: acc) := by
  rw [parseStrUnits.eq_def]
  simp

/-- Scanner step: escaped tab. -/
theorem parseStrUnits_esct (cs : List Char) (acc : List Nat) :
    parseStrUnits ('\\' :: 't' :: cs) acc = parseStrUnits cs (9 :: acc) := by
  rw [parseStrUnits.eq_def]
  simp

/-- Scanner step: escaped backspace. -/
theorem parseStrUnits_escbs (cs : List Char) (acc : List Nat) :
    parseStrUnits ('\\' :: 'b' :: cs) acc = parseStrUnits cs (8 :: acc) := by
  rw [parseStrUnits.eq_def]
  simp

/-- Scanner step: escaped form feed. -/
theorem parseStrUnits_escf (cs : List Char) (acc : List Nat) :
    parseStrUnits ('\\' :: 'f' :: cs) acc = parseStrUnits cs (12 :: acc) := by
  rw [parseStrUnits.eq_def]
  simp

/-- Scanner step: unicode escape with four valid hex digits. -/
theorem parseStrUnits_escu (h1 h2 h3 h4 : Char) (a b e d : Nat)
    (ha : parseHexDigit h1 = some a) (hb : parseHexDigit h2 = some b)
    (hc : parseHexDigit h3 = some e) (hd : parseHexDigit h4 = some d)
    (cs : List Char) (acc : List Nat) :
    parseStrUnits ('\\' :: 'u' :: h1 :: h2 :: h3 :: h4 :: cs) acc =
      parseStrUnits cs ((((a * 16 + b) * 16 + e) * 16 + d) :: acc) := by
  rw [parseStrUnits.eq_def]
  simp [ha, hb, hc, hd]

/-- Scanner step: an ordinary character is pushed as its code units. -/
theorem parseStrUnits_plain (c : Char) (h1 : c ≠ '"') (h2 : c ≠ '\\')
    (h3 : ¬ c.toNat < 32) (cs : List Char) (acc : List Nat) :
    parseStrUnits (c :: cs) acc = parseStrUnits cs ((utf16Units c).reverse ++ acc) := by
  rw [parseStrUnits.eq_def]
  simp [h1, h2, h3]

/-- The escaped body of a quoted string scans back to its code units. -/
theorem parseStrUnits_esc : ∀ (cs : List Char) (acc : List Nat) (rest : List Char),
    parseStrUnits ((cs.map escapeChar).flatten ++ '"' :: rest) acc =
      some ((cs.map utf16Units).flatten.reverse ++ acc, rest) := by
  intro cs
  induction cs with
  | nil =>
    intro acc rest
    simp [parseStrUnits_quote]
  | cons c cs ih =>
    intro acc rest
    by_cases h1 : c = '"'
    · subst h1
      have he : escapeChar '"' = ['\\', '"'] := by decide
      simp only [List.map_cons, List.flatten_cons, he, List.cons_append, List.nil_append,
        List.append_assoc]
      rw [parseStrUnits_escq, ih]
      simp [show utf16Units '"' = [34] from by decide]
    · by_cases h2 : c = '\\'
      · subst h2
        have he : escapeChar '\\' = ['\\', '\\'] := by decide
        simp only [List.map_cons, List.flatten_cons, he, List.cons_append, List.nil_append,
          List.append_assoc]
        rw [parseStrUnits_escb, ih]
        simp [show utf16Units '\\' = [92] from by decide]
      · by_cases h3 : c = '\n'
        · subst h3
          have he : escapeChar '\n' = ['\\', 'n'] := by decide
          simp only [List.map_cons, List.flatten_cons, he, List.cons_append, List.nil_append,
            List.append_assoc]
          rw [parseStrUnits_escn, ih]
          simp [show utf16Units '\n' = [10] from by decide]
        · by_cases h4 : c = '\r'
          · subst h4
            have he : escapeChar '\r' = ['\\', 'r'] := by decide
            simp only [List.map_cons, List.flatten_cons, he, List.cons_append, List.nil_append,
              List.append_assoc]
            rw [parseStrUnits_escr, ih]
            simp [show utf16Units '\r' = [13] from by decide]
          · by_cases h5 : c = '\t'
            · subst h5
              have he : escapeChar '\t' = ['\\', 't'] := by decide
              simp only [List.map_cons, List.flatten_cons, he, List.cons_append, List.nil_append,
                List.append_assoc]
              rw [parseStrUnits_esct, ih]
              simp [show utf16Units '\t' = [9] from by decide]
            · by_cases h6 : c.toNat = 8
              · have hc : c = Char.ofNat 8 := by
                  rw [← Char.ofNat_toNat c, h6]
                subst hc
                have he : escapeChar (Char.ofNat 8) = ['\\', 'b'] := by decide
                simp only [List.map_cons, List.flatten_cons, he, List.cons_append, List.nil_append,
                  List.append_assoc]
                rw [parseStrUnits_escbs, ih]
                simp [show utf16Units (Char.ofNat 8) = [8] from by decide]
              · by_cases h7 : c.toNat = 12
                · have hc : c = Char.ofNat 12 := by
                    rw [← Char.ofNat_toNat c, h7]
                  subst hc
                  have he : escapeChar (Char.ofNat 12) = ['\\', 'f'] := by decide
                  simp only [List.map_cons, List.flatten_cons, he, List.cons_append, List.nil_append,
                    List.append_assoc]
                  rw [parseStrUnits_escf, ih]
                  simp [show utf16Units (Char.ofNat 12) = [12] from by decide]
                · by_cases h8 : c.toNat < 32
                  · have he : escapeChar c = ['\\', 'u', '0', '0',
                        hexDigitLower (c.toNat / 16), hexDigitLower (c.toNat % 16)] := by
                      unfold escapeChar
                      rw [if_neg h1, if_neg h2, if_neg h3, if_neg h4, if_neg h5,
                        if_neg h6, if_neg h7, if_pos h8]
                    have hu : utf16Units c = [c.toNat] := by
                      unfold utf16Units
                      rw [if_pos (by omega)]
                    simp only [List.map_cons, List.flatten_cons, he, hu,
                      List.cons_append, List.nil_append, List.append_assoc]
                    rw [parseStrUnits_escu '0' '0' (hexDigitLower (c.toNat / 16))
                      (hexDigitLower (c.toNat % 16)) 0 0 (c.toNat / 16) (c.toNat % 16)
                      (by decide) (by decide)
                      (parseHexDigit_lower _ (by omega))
                      (parseHexDigit_lower _ (by omega))]
                    rw [ih]
                    rw [show ((0 * 16 + 0) * 16 + c.toNat / 16) * 16 + c.toNat % 16 =
                        c.toNat from by omega]
                    simp
                  · have he : escapeChar c = [c] := by
                      unfold escapeChar
                      rw [if_neg h1, if_neg h2, if_neg h3, if_neg h4, if_neg h5,
                        if_neg h6, if_neg h7, if_neg h8]
                    simp only [List.map_cons, List.flatten_cons, he,
                      List.cons_append, List.nil_append, List.nil_append, List.append_assoc]
                    rw [parseStrUnits_plain c h1 h2 h8, ih]
                    simp

/-- Decoder base case: no units, no characters. -/
theorem utf16ToChars_nil : utf16ToChars [] = [] := by
  rw [utf16ToChars.eq_def]

/-- Decoder step: a non-high-surrogate unit yields its own character. -/
theorem utf16ToChars_nonsurr (u : Nat) (hns : u < 55296 ∨ 56319 < u) (us : List Nat) :
    utf16ToChars (u :: us) = Char.ofNat u :: utf16ToChars us := by
  have hb : (decide (55296 ≤ u) && decide (u ≤ 56319)) = false := by
    rw [Bool.eq_false_iff]
    intro hcon
    rw [Bool.and_eq_true, decide_eq_true_eq, decide_eq_true_eq] at hcon
    omega
  cases us with
  | nil =>
    rw [utf16ToChars.eq_def]
    simp [utf16ToChars_nil]
  | cons u2 us =>
    rw [utf16ToChars.eq_def]
    simp [hb]

/-- Decoder step: a surrogate pair combines into one supplementary character. -/
theorem utf16ToChars_pair (hi lo : Nat) (h1 : 55296 ≤ hi) (h2 : hi ≤ 56319)
    (h3 : 56320 ≤ lo) (h4 : lo ≤ 57343) (us : List Nat) :
    utf16ToChars (hi :: lo :: us) =
      Char.ofNat (65536 + (hi - 55296) * 1024 + (lo - 56320)) :: utf16ToChars us := by
  rw [utf16ToChars.eq_def]
  simp [h1, h2, h3, h4]

/-- Re-decoding the UTF-16 units of a character list gives it back. -/
theorem utf16ToChars_units : ∀ cs : List Char,
    utf16ToChars (cs.map utf16Units).flatten = cs := by
  intro cs
  induction cs with
  | nil =>
    rw [List.map_nil, List.flatten_nil, utf16ToChars.eq_def]
  | cons c cs ih =>
    rcases char_scalar_range c with h | h
    · have hu : utf16Units c = [c.toNat] := by
        unfold utf16Units
        rw [if_pos (by omega)]
      simp only [List.map_cons, List.flatten_cons, hu, List.cons_append,
        List.nil_append]
      rw [utf16ToChars_nonsurr _ (Or.inl h), ih, Char.ofNat_toNat]
    · by_cases hb : c.toNat < 65536
      · have hu : utf16Units c = [c.toNat] := by
          unfold utf16Units
          rw [if_pos hb]
        simp only [List.map_cons, List.flatten_cons, hu, List.cons_append,
          List.nil_append]
        rw [utf16ToChars_nonsurr _ (Or.inr (by omega)), ih, Char.ofNat_toNat]
      · have hu : utf16Units c =
            [55296 + (c.toNat - 65536) / 1024, 56320 + (c.toNat - 65536) % 1024] := by
          unfold utf16Units
          rw [if_neg hb]
        simp only [List.map_cons, List.flatten_cons, hu, List.cons_append,
          List.nil_append]
        rw [utf16ToChars_pair _ _ (by omega) (by omega) (by omega) (by omega), ih]
        rw [show 65536 + (55296 + (c.toNat - 65536) / 1024 - 55296) * 1024 +
            (56320 + (c.toNat - 65536) % 1024 - 56320) = c.toNat from by omega]
        rw [Char.ofNat_toNat]

/-- A fully escaped string body followed by a closing quote parses back to
the original string. -/
theorem parseStringTok_esc (s : String) (rest : List Char) :
    parseStringTok ((s.data.map escapeChar).flatten ++ '"' :: rest) =
      some (s, rest) := by
  unfold parseStringTok
  rw [parseStrUnits_esc s.data [] rest]
  simp only []
  rw [List.append_nil, List.reverse_reverse, utf16ToChars_units]

/-- Skipping whitespace is idempotent. -/
theorem skipWs_idem : ∀ cs : List Char, skipWs (skipWs cs) = skipWs cs := by
  intro cs
  induction cs with
  | nil => rfl
  | cons c cs ih =>
    by_cases h : isJsonWs c = true
    · rw [show skipWs (c :: cs) = skipWs cs from by simp [skipWs, h], ih]
    · rw [Bool.not_eq_true] at h
      rw [skipWs_head _ _ h]
      exact skipWs_head _ _ h

/-- Unquoting the definition of `escapeString` under an appended tail. -/
theorem escapeString_append (s : String) (rest : List Char) :
    escapeString s ++ rest = '"' :: ((s.data.map escapeChar).flatten ++ '"' :: rest) := by
  simp [escapeString]

/-- Every printed value is at least one gauge unit. -/
theorem szV_pos (v : Json) : 0 < szV v := by
  cases v <;> simp [szV]

/-- List gauges are positive. -/
theorem szL_pos (xs : List Json) : 0 < szL xs := by
  cases xs <;> simp [szL]

/-- Field gauges are positive. -/
theorem szF_pos (fs : List (String × Json)) : 0 < szF fs := by
  cases fs with
  | nil => simp [szF]
  | cons p fs => obtain ⟨k, v⟩ := p; simp [szF]

/-- The continuation after an array item never starts with a digit. -/
theorem headNotDigit_arrTail (xs : List Json) (d : Nat) (Z : List Char) :
    headNotDigit (printArrTail xs d ++ '\n' :: Z) := by
  cases xs with
  | nil =>
    show headNotDigit ('\n' :: Z)
    show isDigitChar '\n' = false
    decide
  | cons y ys =>
    show headNotDigit (',' :: _)
    show isDigitChar ',' = false
    decide

/-- The continuation after an object member never starts with a digit. -/
theorem headNotDigit_objTail (fs : List (String × Json)) (d : Nat) (Z : List Char) :
    headNotDigit (printObjTail fs d ++ '\n' :: Z) := by
  cases fs with
  | nil =>
    show headNotDigit ('\n' :: Z)
    show isDigitChar '\n' = false
    decide
  | cons p fs =>
    obtain ⟨k, v⟩ := p
    show headNotDigit (',' :: _)
    show isDigitChar ',' = false
    decide

/-- The first character of any printed value is not whitespace and not a
closing bracket. -/
theorem printJson_head (v : Json) (d : Nat) :
    ∃ c t, printJson v d = c :: t ∧ isJsonWs c = false ∧ c ≠ ']' ∧ c ≠ '}' := by
  cases v with
  | jnull => exact ⟨'n', _, rfl, by decide, by decide, by decide⟩
  | jbool b =>
    cases b with
    | false => exact ⟨'f', _, rfl, by decide, by decide, by decide⟩
    | true => exact ⟨'t', _, rfl, by decide, by decide, by decide⟩
  | jnum i =>
    show ∃ c t, printInt i = c :: t ∧ _
    by_cases hneg : i < 0
    · refine ⟨'-', printNat i.natAbs, ?_, by decide, by decide, by decide⟩
      unfold printInt
      rw [if_pos hneg]
    · by_cases h0 : i.natAbs = 0
      · refine ⟨'0', [], ?_, by decide, by decide, by decide⟩
        unfold printInt
        rw [if_neg hneg, h0]
        rfl
      · obtain ⟨h, t, he, hz, hlt⟩ :=
          digitsOfAux_head_pos (i.natAbs + 1) i.natAbs (by omega) (by omega)
        have hfacts : ∀ h, h < 10 → isJsonWs (natDigitChar h) = false ∧
            natDigitChar h ≠ ']' ∧ natDigitChar h ≠ '}' := by decide
        obtain ⟨hw, hne1, hne2⟩ := hfacts h hlt
        refine ⟨natDigitChar h, t.map natDigitChar, ?_, hw, hne1, hne2⟩
        unfold printInt
        rw [if_neg hneg]
        unfold printNat digitsOf
        rw [he]
        simp
  | jstr s =>
    refine ⟨'"', (s.data.map escapeChar).flatten ++ ['"'], ?_, by decide, by decide,
      by decide⟩
    rfl
  | jarr xs =>
    cases xs with
    | nil => exact ⟨'[', _, rfl, by decide, by decide, by decide⟩
    | cons x xs => exact ⟨'[', _, rfl, by decide, by decide, by decide⟩
  | jobj fs =>
    cases fs with
    | nil => exact ⟨'{', _, rfl, by decide, by decide, by decide⟩
    | cons p fs =>
      obtain ⟨k, v⟩ := p
      exact ⟨'{', _, rfl, by decide, by decide, by decide⟩

/-- Assigning a fresh key appends the pair. -/
theorem jsAssignFields_notMem : ∀ (acc : List (String × Json)) (k : String) (v : Json),
    k ∉ fieldKeys acc → jsAssignFields acc k v = acc ++ [(k, v)] := by
  intro acc
  induction acc with
  | nil => intro k v _; rfl
  | cons p tl ih =>
    intro k v hk
    obtain ⟨k', v'⟩ := p
    have hne : k' ≠ k := by
      intro e
      exact hk (by simp [fieldKeys, e])
    rw [show jsAssignFields ((k', v') :: tl) k v =
        (k', v') :: jsAssignFields tl k v from by simp [jsAssignFields, hne]]
    rw [ih k v (fun hmem => hk (by simp [fieldKeys] at hmem ⊢; exact Or.inr hmem))]
    rfl

/-- Folding fresh, pairwise-distinct pairs into an accumulator appends them. -/
theorem jsObjFromPairsAux_append : ∀ (ps acc : List (String × Json)),
    (∀ k ∈ fieldKeys ps, k ∉ fieldKeys acc) → nodupKeys (fieldKeys ps) = true →
    jsObjFromPairsAux acc ps = acc ++ ps := by
  intro ps
  induction ps with
  | nil => intro acc _ _; simp [jsObjFromPairsAux]
  | cons p tl ih =>
    intro acc hfresh hnd
    obtain ⟨k, v⟩ := p
    simp only [fieldKeys, List.map_cons, nodupKeys, Bool.and_eq_true,
      Bool.not_eq_true'] at hnd
    obtain ⟨hany, hndtl⟩ := hnd
    have hkacc : k ∉ fieldKeys acc := hfresh k (by simp [fieldKeys])
    rw [show jsObjFromPairsAux acc ((k, v) :: tl) =
        jsObjFromPairsAux (jsAssignFields acc k v) tl from rfl]
    rw [jsAssignFields_notMem acc k v hkacc]
    rw [ih (acc ++ [(k, v)]) ?fresh hndtl]
    · simp
    case fresh =>
      intro k' hk'
      have hk'ne : k' ≠ k := by
        rw [List.any_eq_false] at hany
        have h2 := hany k' (by simpa [fieldKeys] using hk')
        simpa using h2
      intro hmem
      rw [show fieldKeys (acc ++ [(k, v)]) = fieldKeys acc ++ [k] from by
        simp [fieldKeys]] at hmem
      rcases List.mem_append.mp hmem with hmem | hmem
      · exact hfresh k' (by simp [fieldKeys] at hk' ⊢; exact Or.inr hk') hmem
      · exact hk'ne (by simpa using hmem)

/-- With pairwise-distinct keys, rebuilding an object from its parsed pairs
is the identity (no overwriting happens). -/
theorem jsObjFromPairs_nodup (ps : List (String × Json))
    (h : nodupKeys (fieldKeys ps) = true) : jsObjFromPairs ps = ps := by
  unfold jsObjFromPairs
  rw [jsObjFromPairsAux_append ps [] (by simp [fieldKeys]) h]
  simp

/-- `parseValue` on a printed `null`. -/
theorem parseValue_null (f d : Nat) (rest : List Char) :
    parseValue (f + 1) (printJson .jnull d ++ rest) = some (.jnull, rest) := by
  show parseValue (f + 1) ('n' :: 'u' :: 'l' :: 'l' :: rest) = some (.jnull, rest)
  simp only [parseValue]
  rw [skipWs_head _ _ (by decide)]
  rfl

/-- `parseValue` on a printed `true`. -/
theorem parseValue_true (f d : Nat) (rest : List Char) :
    parseValue (f + 1) (printJson (.jbool true) d ++ rest) =
      some (.jbool true, rest) := by
  show parseValue (f + 1) ('t' :: 'r' :: 'u' :: 'e' :: rest) = some (.jbool true, rest)
  simp only [parseValue]
  rw [skipWs_head _ _ (by decide)]
  rfl

/-- `parseValue` on a printed `false`. -/
theorem parseValue_false (f d : Nat) (rest : List Char) :
    parseValue (f + 1) (printJson (.jbool false) d ++ rest) =
      some (.jbool false, rest) := by
  show parseValue (f + 1) ('f' :: 'a' :: 'l' :: 's' :: 'e' :: rest) =
    some (.jbool false, rest)
  simp only [parseValue]
  rw [skipWs_head _ _ (by decide)]
  rfl

/-- `parseValue` on a printed string literal. -/
theorem parseValue_str (f : Nat) (s : String) (d : Nat) (rest : List Char) :
    parseValue (f + 1) (printJson (.jstr s) d ++ rest) = some (.jstr s, rest) := by
  show parseValue (f + 1) (escapeString s ++ rest) = some (.jstr s, rest)
  rw [escapeString_append]
  simp only [parseValue]
  rw [skipWs_head _ _ (by decide)]
  simp only []
  rw [parseStringTok_esc]

/-- `parseValue` on a printed empty array. -/
theorem parseValue_arr_nil (f d : Nat) (rest : List Char) :
    parseValue (f + 1) (printJson (.jarr []) d ++ rest) = some (.jarr [], rest) := by
  show parseValue (f + 1) ('[' :: ']' :: rest) = some (.jarr [], rest)
  simp only [parseValue]
  rw [skipWs_head _ _ (by decide)]
  simp only []
  rw [skipWs_head _ _ (by decide)]
  rfl

/-- `parseValue` on a printed empty object. -/
theorem parseValue_obj_nil (f d : Nat) (rest : List Char) :
    parseValue (f + 1) (printJson (.jobj []) d ++ rest) = some (.jobj [], rest) := by
  show parseValue (f + 1) ('{' :: '}' :: rest) = some (.jobj [], rest)
  simp only [parseValue]
  rw [skipWs_head _ _ (by decide)]
  simp only []
  rw [skipWs_head _ _ (by decide)]
  rfl

/-- `parseValue` after `[` with a non-`]` first token delegates to the item
parser on the raw continuation. -/
theorem parseValue_arr_head (f : Nat) (cs : List Char) (c : Char) (t : List Char)
    (hcs : skipWs cs = c :: t) (hne : c ≠ ']') :
    parseValue (f + 1) ('[' :: cs) =
      match parseArrItems f cs with
      | some (xs, rest') => some (.jarr xs, rest')
      | none => none := by
  simp only [parseValue]
  rw [skipWs_head _ _ (by decide)]
  simp only []
  rw [hcs]
  split
  · rename_i heq
    injection heq with h1 _
    exact absurd h1 hne
  · rw [← hcs, parseArrItems_congr f (skipWs cs) cs (skipWs_idem cs)]

/-- `parseValue` after `{` with a non-`}` first token delegates to the member
parser on the raw continuation. -/
theorem parseValue_obj_head (f : Nat) (cs : List Char) (c : Char) (t : List Char)
    (hcs : skipWs cs = c :: t) (hne : c ≠ '}') :
    parseValue (f + 1) ('{' :: cs) =
      match parseObjItems f cs with
      | some (ps, rest') => some (.jobj (jsObjFromPairs ps), rest')
      | none => none := by
  simp only [parseValue]
  rw [skipWs_head _ _ (by decide)]
  simp only []
  rw [hcs]
  split
  · rename_i heq
    injection heq with h1 _
    exact absurd h1 hne
  · rw [← hcs, parseObjItems_congr f (skipWs cs) cs (skipWs_idem cs)]

/-- A leading space is insignificant. -/
theorem skipWs_space (cs : List Char) : skipWs (' ' :: cs) = skipWs cs := by
  simp [skipWs, isJsonWs]

/-- Cons-normalized form of `skipWs_nl_indent`. -/
theorem skipWs_nl_indent2 (d : Nat) (cs : List Char) :
    skipWs ('\n' :: (indentChars d ++ cs)) = skipWs cs := skipWs_nl_indent d cs

/-- Round trip of the pretty printer and the parser, by fuel induction:
printed well-formed values, array item lists and object member lists all
parse back to themselves. -/
theorem parse_print_roundtrip : ∀ f : Nat,
    (∀ v d rest, szV v ≤ f → jsonWf v = true → headNotDigit rest →
      parseValue f (printJson v d ++ rest) = some (v, rest)) ∧
    (∀ x xs d' d rest, szL (x :: xs) ≤ f → jsonWfList (x :: xs) = true →
      parseArrItems f (printJson x d' ++ (printArrTail xs d' ++
        ('\n' :: (indentChars d ++ (']' :: rest))))) = some (x :: xs, rest)) ∧
    (∀ k v fs d' d rest, szF ((k, v) :: fs) ≤ f →
      jsonWfFields ((k, v) :: fs) = true →
      parseObjItems f (escapeString k ++ (':' :: ' ' :: (printJson v d' ++
        (printObjTail fs d' ++ ('\n' :: (indentChars d ++ ('}' :: rest))))))) =
        some ((k, v) :: fs, rest)) := by
  intro f
  induction f with
  | zero =>
    refine ⟨?_, ?_, ?_⟩
    · intro v d rest hsz _ _
      exact absurd hsz (by have := szV_pos v; omega)
    · intro x xs d' d rest hsz _
      have h1 := szV_pos x
      have h2 := szL_pos xs
      simp only [szL] at hsz
      omega
    · intro k v fs d' d rest hsz _
      have h1 := szV_pos v
      have h2 := szF_pos fs
      simp only [szF] at hsz
      omega
  | succ f ih =>
    obtain ⟨ihV, ihL, ihF⟩ := ih
    refine ⟨?_, ?_, ?_⟩
    · intro v d rest hsz hwf hnd
      cases v with
      | jnull => exact parseValue_null f d rest
      | jbool b =>
        cases b with
        | true => exact parseValue_true f d rest
        | false => exact parseValue_false f d rest
      | jnum i => exact parseValue_num i f d rest hnd
      | jstr s => exact parseValue_str f s d rest
      | jarr xs =>
        cases xs with
        | nil => exact parseValue_arr_nil f d rest
        | cons x xs =>
          have hw : jsonWfList (x :: xs) = true := by simpa [jsonWf] using hwf
          have hsz' : szL (x :: xs) ≤ f := by
            simp only [szV] at hsz
            omega
          obtain ⟨c, t0, hpx, hws, hne1, hne2⟩ := printJson_head x (d + 1)
          show parseValue (f + 1)
              (('[' :: '\n' :: indentChars (d + 1) ++ printJson x (d + 1)
                ++ printArrTail xs (d + 1) ++ '\n' :: indentChars d ++ [']'])
                ++ rest) =
            some (.jarr (x :: xs), rest)
          simp only [List.cons_append, List.append_assoc, List.nil_append]
          rw [parseValue_arr_head f _ c
            (t0 ++ (printArrTail xs (d + 1) ++
              ('\n' :: (indentChars d ++ (']' :: rest)))))
            (by
              rw [skipWs_nl_indent2, hpx, List.cons_append]
              exact skipWs_head _ _ hws)
            hne1]
          rw [parseArrItems_congr f _ _ (skipWs_nl_indent2 (d + 1) _)]
          rw [ihL x xs (d + 1) d rest hsz' hw]
      | jobj fs =>
        cases fs with
        | nil => exact parseValue_obj_nil f d rest
        | cons p fs =>
          obtain ⟨k, v⟩ := p
          simp only [jsonWf, Bool.and_eq_true] at hwf
          obtain ⟨hnodup, hwfields⟩ := hwf
          have hsz' : szF ((k, v) :: fs) ≤ f := by
            simp only [szV] at hsz
            omega
          show parseValue (f + 1)
              (('{' :: '\n' :: indentChars (d + 1) ++ escapeString k
                ++ ':' :: ' ' :: printJson v (d + 1) ++ printObjTail fs (d + 1)
                ++ '\n' :: indentChars d ++ ['}']) ++ rest) =
            some (.jobj ((k, v) :: fs), rest)
          simp only [List.cons_append, List.append_assoc, List.nil_append]
          rw [parseValue_obj_head f _ '"'
            ((k.data.map escapeChar).flatten ++ '"' ::
              (':' :: ' ' :: (printJson v (d + 1) ++ (printObjTail fs (d + 1) ++
                ('\n' :: (indentChars d ++ ('}' :: rest)))))))
            (by
              rw [skipWs_nl_indent2, escapeString_append]
              exact skipWs_head _ _ (by decide))
            (by decide)]
          rw [parseObjItems_congr f _ _ (skipWs_nl_indent2 (d + 1) _)]
          rw [ihF k v fs (d + 1) d rest hsz' hwfields]
          simp only []
          rw [jsObjFromPairs_nodup _ hnodup]
    · intro x xs d' d rest hsz hw
      simp only [jsonWfList, Bool.and_eq_true] at hw
      obtain ⟨hwx, hwxs⟩ := hw
      have hszx : szV x ≤ f := by
        simp only [szL] at hsz
        omega
      simp only [parseArrItems]
      rw [ihV x d' (printArrTail xs d' ++ ('\n' :: (indentChars d ++ (']' :: rest))))
        hszx hwx (headNotDigit_arrTail xs d' _)]
      simp only []
      cases xs with
      | nil =>
        rw [show printArrTail [] d' = ([] : List Char) from rfl, List.nil_append]
        rw [skipWs_nl_indent2, skipWs_head _ _ (by decide)]
        rfl
      | cons y ys =>
        have hszy : szL (y :: ys) ≤ f := by
          simp only [szL] at hsz ⊢
          omega
        simp only [printArrTail, List.cons_append, List.append_assoc]
        rw [skipWs_head _ _ (by decide)]
        simp only []
        rw [parseArrItems_congr f _ _ (skipWs_nl_indent2 d' _)]
        rw [ihL y ys d' d rest hszy hwxs]
    · intro k v fs d' d rest hsz hw
      simp only [jsonWfFields, Bool.and_eq_true] at hw
      obtain ⟨hwv, hwfs⟩ := hw
      have hszv : szV v ≤ f := by
        simp only [szF] at hsz
        omega
      simp only [parseObjItems]
      rw [escapeString_append, skipWs_head _ _ (by decide)]
      simp only []
      rw [parseStringTok_esc]
      simp only []
      rw [skipWs_head _ _ (by decide)]
      simp only []
      rw [parseValue_congr f _ _ (skipWs_space _)]
      rw [ihV v d' (printObjTail fs d' ++ ('\n' :: (indentChars d ++ ('}' :: rest))))
        hszv hwv (headNotDigit_objTail fs d' _)]
      simp only []
      cases fs with
      | nil =>
        rw [show printObjTail [] d' = ([] : List Char) from rfl, List.nil_append]
        rw [skipWs_nl_indent2, skipWs_head _ _ (by decide)]
        rfl
      | cons p fs'
      =>
        obtain ⟨k2, v2⟩ := p
        have hsz2 : szF ((k2, v2) :: fs') ≤ f := by
          simp only [szF] at hsz ⊢
          omega
        simp only [printObjTail, List.cons_append, List.append_assoc]
        rw [skipWs_head _ _ (by decide)]
        simp only []
        rw [parseObjItems_congr f _ _ (skipWs_nl_indent2 d' _)]
        rw [ihF k2 v2 fs' d' d rest hsz2 hwfs]

/-- Indentation length. -/
theorem indentChars_len (d : Nat) : (indentChars d).length = 2 * d := by
  simp [indentChars]

mutual
/-- The value gauge is bounded by the printed length. -/
theorem szV_le_len : ∀ (v : Json) (d : Nat), szV v ≤ (printJson v d).length + 1
  | .jnull, _ => by simp [szV]
  | .jbool true, _ => by simp [szV]
  | .jbool false, _ => by simp [szV]
  | .jnum i, _ => by simp [szV]
  | .jstr s, _ => by simp [szV]
  | .jarr [], _ => by simp [szV, szL, printJson]
  | .jarr (x :: xs), d => by
    have h1 := szV_le_len x (d + 1)
    have h2 := szL_le_len xs (d + 1)
    show 1 + szL (x :: xs) ≤ _
    simp only [szL, printJson, List.length_cons, List.length_append,
      indentChars_len] at *
    omega
  | .jobj [], _ => by simp [szV, szF, printJson]
  | .jobj ((k, v) :: fs), d => by
    have h1 := szV_le_len v (d + 1)
    have h2 := szF_le_len fs (d + 1)
    show 1 + szF ((k, v) :: fs) ≤ _
    simp only [szF, printJson, List.length_cons, List.length_append,
      indentChars_len] at *
    omega

/-- The item-list gauge is bounded by the printed tail length. -/
theorem szL_le_len : ∀ (xs : List Json) (d : Nat),
    szL xs ≤ (printArrTail xs d).length + 2
  | [], _ => by simp [szL, printArrTail]
  | x :: xs, d => by
    have h1 := szV_le_len x d
    have h2 := szL_le_len xs d
    simp only [szL, printArrTail, List.length_cons, List.length_append,
      indentChars_len] at *
    omega

/-- The member-list gauge is bounded by the printed tail length. -/
theorem szF_le_len : ∀ (fs : List (String × Json)) (d : Nat),
    szF fs ≤ (printObjTail fs d).length + 2
  | [], _ => by simp [szF, printObjTail]
  | (k, v) :: fs, d => by
    have h1 := szV_le_len v d
    have h2 := szF_le_len fs d
    simp only [szF, printObjTail, List.length_cons, List.length_append,
      indentChars_len] at *
    omega
end

/-- Parsing the 2-space-indented rendering of a well-formed value returns
exactly that value. -/
theorem parseJson_print (v : Json) (h : jsonWf v = true) :
    parseJson (jsonStringify2 v) = some v := by
  unfold parseJson jsonStringify2
  rw [show (String.mk (printJson v 0)).data = printJson v 0 from rfl]
  have hb : szV v ≤ 2 * (printJson v 0).length + 2 := by
    have := szV_le_len v 0
    omega
  have hrt := (parse_print_roundtrip (2 * (printJson v 0).length + 2)).1 v 0 []
    hb h (by trivial)
  rw [List.append_nil] at hrt
  rw [hrt]
  rfl

/-- C9: For a JSON-serializable in-memory report object — a well-formed JS
value, i.e. every object carries pairwise-distinct keys — the JSON export
round-trips: the URI-encoded payload of the download link decodes back to
the exported file contents, and `JSON.parse` of those contents returns an
object equal to the in-memory one. -/
theorem c9_export_roundtrip (v : Json) (h : jsonWf v = true) :
    decodeURIComponent (exportDataUriPayload v) = some (exportJSONString v).data ∧
      parseJson (exportJSONString v) = some v := by
  constructor
  · exact decode_encode_uri (exportJSONString v).data
  · exact parseJson_print v h

/-- C9 witness: the round trip at a concrete report-like object. -/
theorem c9_export_roundtrip_witness :
    jsonWf (Json.jobj [("summary", Json.jstr "ok"),
      ("anomalies_and_errors", Json.jarr [Json.jnum (-2), Json.jbool true,
        Json.jnull])]) = true ∧
    (decodeURIComponent (exportDataUriPayload (Json.jobj [("summary",
        Json.jstr "ok"), ("anomalies_and_errors", Json.jarr [Json.jnum (-2),
        Json.jbool true, Json.jnull])])) =
      some (exportJSONString (Json.jobj [("summary", Json.jstr "ok"),
        ("anomalies_and_errors", Json.jarr [Json.jnum (-2), Json.jbool true,
        Json.jnull])])).data ∧
      parseJson (exportJSONString (Json.jobj [("summary", Json.jstr "ok"),
        ("anomalies_and_errors", Json.jarr [Json.jnum (-2), Json.jbool true,
        Json.jnull])])) =
        some (Json.jobj [("summary", Json.jstr "ok"),
          ("anomalies_and_errors", Json.jarr [Json.jnum (-2), Json.jbool true,
          Json.jnull])])) :=
  ⟨by decide, c9_export_roundtrip _ (by decide)⟩
